import Mathlib

/-!
Verification of the agentic retrieval / search engine of this repository
against its natural-language specification.

The Python sources are shallowly embedded: strings are modelled as `List Char`
(`Chars`), JSON-like Python values as the inductive `PyVal`, fallible Python
code as `Except Chars`.  External collaborators (the LLM gateway, the JSON
decoder of the standard library, the SQL connection pool, the filesystem and
the PDF reader) are modelled as explicit oracle parameters, exactly at the
boundary where the source calls them.  Every function is translated from the
corresponding Python definition; deviations forced by the modelling (for
example: CPython set iteration order, float rendering) are noted in comments
next to the definition they concern.
-/

/-- Python strings are modelled as lists of characters. -/
abbrev Chars := List Char

/-- Coercion helper from Lean string literals to the `Chars` model. -/
def chars (s : String) : Chars := s.data

/-- Whitespace test mirroring `str.strip()` / `\s` for the ASCII range used by
the repository (Python also strips further unicode whitespace). -/
def pyIsSpace (c : Char) : Bool :=
  c = ' ' || c = '\t' || c = '\n' || c = '\r' || c = '\x0b' || c = '\x0c'

/-- Left strip, as in `str.lstrip()`. -/
def lstripChars (l : Chars) : Chars := l.dropWhile pyIsSpace

/-- Right strip, as in `str.rstrip()`. -/
def rstripChars (l : Chars) : Chars := (lstripChars l.reverse).reverse

/-- Both-ends strip, as in `str.strip()`. -/
def stripChars (l : Chars) : Chars := rstripChars (lstripChars l)

/-- Strip a given single character from the right end, as in `str.rstrip(';')`. -/
def rstripChar (ch : Char) (l : Chars) : Chars :=
  ((l.reverse).dropWhile (fun c => c = ch)).reverse

/-- Uppercasing of one character, mirroring `str.upper()` on the ASCII range
plus the Spanish accented letters appearing in this repository. -/
def pyUpperChar (c : Char) : Char :=
  if c = 'á' then 'Á' else if c = 'é' then 'É' else if c = 'í' then 'Í'
  else if c = 'ó' then 'Ó' else if c = 'ú' then 'Ú' else if c = 'ñ' then 'Ñ'
  else if c = 'ü' then 'Ü' else c.toUpper

/-- Lowercasing of one character, mirroring `str.lower()` on the same range. -/
def pyLowerChar (c : Char) : Char :=
  if c = 'Á' then 'á' else if c = 'É' then 'é' else if c = 'Í' then 'í'
  else if c = 'Ó' then 'ó' else if c = 'Ú' then 'ú' else if c = 'Ñ' then 'ñ'
  else if c = 'Ü' then 'ü' else c.toLower

/-- Mirrors `str.upper()`. -/
def upperChars (l : Chars) : Chars := l.map pyUpperChar

/-- Mirrors `str.lower()`. -/
def lowerChars (l : Chars) : Chars := l.map pyLowerChar

/-- Boolean prefix test on character lists. -/
def prefixB : Chars → Chars → Bool
  | [], _ => true
  | _ :: _, [] => false
  | p :: ps, c :: cs => p = c && prefixB ps cs

/-- Boolean substring test, mirroring Python's `needle in haystack`. -/
def infixB (pat : Chars) : Chars → Bool
  | [] => pat.isEmpty
  | c :: cs => prefixB pat (c :: cs) || infixB pat cs

theorem prefixB_iff (p l : Chars) : prefixB p l = true ↔ p <+: l := by
  induction p generalizing l with
  | nil => simp [prefixB]
  | cons a ps ih =>
    cases l with
    | nil => simp [prefixB]
    | cons b bs =>
      simp only [prefixB, Bool.and_eq_true, decide_eq_true_eq, ih]
      constructor
      · rintro ⟨rfl, t, rfl⟩; exact ⟨t, rfl⟩
      · intro h
        rcases h with ⟨t, ht⟩
        injection ht with h1 h2
        exact ⟨h1, ⟨t, h2⟩⟩

theorem infixB_iff (p l : Chars) : infixB p l = true ↔ p <:+: l := by
  induction l with
  | nil =>
    simp only [infixB, List.isEmpty_iff]
    constructor
    · rintro rfl; exact List.infix_rfl
    · intro h; simpa using List.eq_nil_of_infix_nil h
  | cons c cs ih =>
    simp only [infixB, Bool.or_eq_true, prefixB_iff, ih]
    constructor
    · rintro (h | h)
      · exact h.isInfix
      · rcases h with ⟨u, v, rfl⟩
        exact ⟨c :: u, v, rfl⟩
    · intro h
      rcases h with ⟨u, v, huv⟩
      cases u with
      | nil => left; exact ⟨v, by simpa using huv⟩
      | cons x xs =>
        right
        injection huv with h1 h2
        exact ⟨xs, v, h2⟩

/-- Characters of a substring occur in the string. -/
theorem mem_of_infixB (p l : Chars) (c : Char) (hp : infixB p l = true) (hc : c ∈ p) :
    c ∈ l :=
  ((infixB_iff p l).mp hp).subset hc

/-- Substring of a substring: `infixB` is monotone in the haystack tail. -/
theorem infixB_of_infix (p l l' : Chars) (h : l <:+: l') (hp : infixB p l = true) :
    infixB p l' = true :=
  (infixB_iff p l').mpr (((infixB_iff p l).mp hp).trans h)

/-- Fuel-based core of `splitOnSep`; structural recursion on the fuel keeps
the definition reducible by the kernel (the caller always passes enough
fuel, namely the length of the list). -/
def splitOnSepF (sep : Chars) : Nat → Chars → List Chars
  | _, [] => [[]]
  | 0, l => [l]
  | fuel + 1, c :: cs =>
    if prefixB sep (c :: cs) && !sep.isEmpty then
      [] :: splitOnSepF sep fuel (List.drop (sep.length - 1) cs)
    else
      match splitOnSepF sep fuel cs with
      | [] => [[c]]
      | p :: ps => (c :: p) :: ps

/-- Splits `l` on the (non-overlapping, leftmost-first) occurrences of a
non-empty separator, mirroring Python's `str.split(sep)`. -/
def splitOnSep (sep l : Chars) : List Chars := splitOnSepF sep l.length l

/-- Python's `sep.join(parts)`. -/
def joinSep (sep : Chars) : List Chars → Chars
  | [] => []
  | [p] => p
  | p :: ps => p ++ sep ++ joinSep sep ps

/-- Python's `str.find(ch)`: index of first occurrence or `-1` modelled as
`none`. -/
def findCharIdx (ch : Char) (l : Chars) : Option Nat :=
  l.findIdx? (fun c => c = ch)

/-- Python's `str.rfind(ch)`: index of last occurrence. -/
def rfindCharIdx (ch : Char) (l : Chars) : Option Nat :=
  match findCharIdx ch l.reverse with
  | none => none
  | some i => some (l.length - 1 - i)

example : chars "abc" = ['a', 'b', 'c'] := rfl
example : stripChars (chars "  hola  ") = chars "hola" := by decide
example : infixB (chars "LIM") (chars "SELECT LIMIT") = true := by decide
example : infixB (chars "LIM") (chars "SELECT") = false := by decide
example : splitOnSep (chars "``") (chars "a``b``c") = [chars "a", chars "b", chars "c"] := by decide
example : rstripChar ';' (chars "SELECT 1;;") = chars "SELECT 1" := by decide
example : rfindCharIdx '\x7d' (chars "a\x7db\x7dc") = some 3 := by decide

/-!
## Python values

JSON-like Python runtime values, as produced by `json.loads`, tool outputs and
LLM structured responses.  Numbers are modelled as rationals (the claims under
verification do not depend on floating-point rounding).  Dictionary values
keep insertion order, like CPython dicts.
-/

inductive PyVal where
  | none
  | bool (b : Bool)
  | num (q : Rat)
  | str (s : Chars)
  | list (xs : List PyVal)
  | dict (kvs : List (Chars × PyVal))

/-- First-match association lookup (CPython dict keys are unique, so this is
dict access). -/
def dictLookup (k : Chars) : List (Chars × PyVal) → Option PyVal
  | [] => Option.none
  | (k', v) :: rest => if k' = k then some v else dictLookup k rest

/-- Python dict assignment `d[k] = v`: replaces in place if the key exists,
otherwise appends (CPython insertion order). -/
def dictAssign (k : Chars) (v : PyVal) : List (Chars × PyVal) → List (Chars × PyVal)
  | [] => [(k, v)]
  | (k', v') :: rest =>
    if k' = k then (k, v) :: rest else (k', v') :: dictAssign k v rest

/-- Python truthiness, `bool(x)`. -/
def pyTruthy : PyVal → Bool
  | .none => false
  | .bool b => b
  | .num q => q ≠ 0
  | .str s => !s.isEmpty
  | .list xs => !xs.isEmpty
  | .dict kvs => !kvs.isEmpty

/-- Numeric view used by `==`, `+`, `>`: Python treats `bool` as an `int`. -/
def pyAsNum : PyVal → Option Rat
  | .num q => some q
  | .bool b => some (if b then 1 else 0)
  | _ => Option.none

/-- Python `==` (never raises); dict comparison is key-based and order
insensitive, list comparison elementwise, `bool` compares as an `int`. -/
def pyEq (a b : PyVal) : Bool :=
  match a, b with
  | .none, .none => true
  | .str x, .str y => x = y
  | .list xs, .list ys => pyEqL xs ys
  | .dict xs, .dict ys => xs.length = ys.length && pyEqD xs ys
  | x, y =>
    match pyAsNum x, pyAsNum y with
    | some p, some q => p = q
    | _, _ => false
  termination_by structural a
where
  /-- Elementwise `==` on Python lists. -/
  pyEqL : List PyVal → List PyVal → Bool
    | [], [] => true
    | x :: xs, y :: ys => pyEq x y && pyEqL xs ys
    | _, _ => false
  /-- Containment of the first dict in the second (key present, value `==`). -/
  pyEqD : List (Chars × PyVal) → List (Chars × PyVal) → Bool
    | [], _ => true
    | (k, v) :: rest, other =>
      (match dictLookup k other with
       | some w => pyEq v w
       | Option.none => false) && pyEqD rest other

/-- Python `d.get(k)` / `d.get(k, default)` on a value known to be a dict;
on a non-dict it raises `AttributeError` (modelled as `.error`). -/
def pyGetE (v : PyVal) (k : Chars) : Except Chars (Option PyVal) :=
  match v with
  | .dict kvs => .ok (dictLookup k kvs)
  | _ => .error (chars "AttributeError: get")

/-- Python `d[k]` subscription on dicts: `KeyError` when absent, `TypeError`
on non-dict receivers (approximating the non-dict cases that matter here). -/
def pySubscrE (v : PyVal) (k : Chars) : Except Chars PyVal :=
  match v with
  | .dict kvs =>
    match dictLookup k kvs with
    | some w => .ok w
    | Option.none => .error (chars "KeyError" ++ chars ": " ++ k)
  | _ => .error (chars "TypeError: subscript")

/-- Python `d[k] = v`: only dicts accept item assignment. -/
def pyAssignE (v : PyVal) (k : Chars) (w : PyVal) : Except Chars PyVal :=
  match v with
  | .dict kvs => .ok (.dict (dictAssign k w kvs))
  | _ => .error (chars "TypeError: item assignment")

/-- Python `x in container`; raises `TypeError` for the unsupported mixes the
sources could hit (substring test needs a string needle, dict membership an
hashable key, numbers are not containers). -/
def pyIn (x container : PyVal) : Except Chars Bool :=
  match container with
  | .dict kvs =>
    match x with
    | .str s => .ok (dictLookup s kvs).isSome
    | .list _ => .error (chars "TypeError: unhashable")
    | .dict _ => .error (chars "TypeError: unhashable")
    | _ => .ok false
  | .str s =>
    match x with
    | .str p => .ok (infixB p s)
    | _ => .error (chars "TypeError: in str")
  | .list xs => .ok (xs.any (fun y => pyEq x y))
  | _ => .error (chars "TypeError: not a container")

/-- Python `a + b` for the value shapes reachable in the sources. -/
def pyAdd (a b : PyVal) : Except Chars PyVal :=
  match pyAsNum a, pyAsNum b with
  | some x, some y => .ok (.num (x + y))
  | _, _ =>
    match a, b with
    | .str x, .str y => .ok (.str (x ++ y))
    | .list x, .list y => .ok (.list (x ++ y))
    | _, _ => .error (chars "TypeError: +")

/-- Python `a > r` against a numeric literal. -/
def pyGtNum (a : PyVal) (r : Rat) : Except Chars Bool :=
  match pyAsNum a with
  | some x => .ok (decide (r < x))
  | Option.none => .error (chars "TypeError: >")

/-- Decimal representation of an integer (`str(n)` for Python ints). -/
def intRepr (n : Int) : Chars :=
  if n < 0 then '-' :: (Nat.repr n.natAbs).data else (Nat.repr n.natAbs).data

/-- Rendering of a Python number.  Integral values match `str()` exactly;
non-integral values are rendered as `num/den`, an approximation of CPython's
float repr that no verified claim depends on. -/
def numRepr (q : Rat) : Chars :=
  if q.den = 1 then intRepr q.num
  else intRepr q.num ++ chars "/" ++ (Nat.repr q.den).data

/-- Python `repr(x)` (string escaping inside `repr` of a `str` is not
reproduced: the repository only builds loop signatures from plain names). -/
def pyRepr : PyVal → Chars
  | .none => chars "None"
  | .bool b => if b then chars "True" else chars "False"
  | .num q => numRepr q
  | .str s => '\'' :: s ++ ['\'']
  | .list xs => '[' :: joinSep (chars ", ") (reprL xs) ++ [']']
  | .dict kvs => '{' :: joinSep (chars ", ") (reprD kvs) ++ ['}']
  termination_by structural v => v
where
  /-- Helper of `pyRepr` for list elements. -/
  reprL : List PyVal → List Chars
    | [] => []
    | x :: xs => pyRepr x :: reprL xs
  /-- Helper of `pyRepr` for dict items. -/
  reprD : List (Chars × PyVal) → List Chars
    | [] => []
    | (k, v) :: rest =>
      ('\'' :: k ++ ['\''] ++ chars ": " ++ pyRepr v) :: reprD rest

/-- Python `str(x)`: identity on strings, `repr` otherwise. -/
def pyStr : PyVal → Chars
  | .str s => s
  | v => pyRepr v

example : pyEq (.num 0) (.bool false) = true := rfl
example : pyTruthy (.str []) = false := rfl
example : pyRepr (.list [.str (chars "a"), .num 2]) = chars "['a', 2]" := rfl

/-!
## SQL query tool (`src/tools/sql_query_tool.py`, `src/agents/buscador/config.py`)

The asyncpg connection pool is modelled as an oracle
`db : Chars → Except Chars (List PyVal)` mapping the final query text to
either the fetched rows or a raised exception message.
-/

/-- Allow-listed table names (`ALLOWED_TABLES`).  The Python value is a `set`;
only the wording of the rejection message, never the accept/reject decision,
depends on its iteration order, so a fixed list in source order is used. -/
def ALLOWED_TABLES : List Chars :=
  [chars "afiliados", chars "aportes", chars "traspasos", chars "reclamos",
   chars "beneficiarios", chars "pensiones", chars "movimientos",
   chars "empleadores", chars "vista_resumen_afiliado",
   chars "vista_empleadores_morosos"]

/-- Allow-listed columns per table (`ALLOWED_COLUMNS`).  The validator never
consults this map; it is embedded because claim C2 mentions columns. -/
def ALLOWED_COLUMNS : List (Chars × List Chars) :=
  [(chars "afiliados",
    [chars "rut", chars "nombre", chars "apellido_paterno", chars "apellido_materno",
     chars "email", chars "telefono", chars "fecha_nacimiento", chars "fecha_afiliacion",
     chars "estado", chars "tipo_afiliado", chars "empleador", chars "renta_imponible",
     chars "fondo_actual", chars "saldo_obligatorio", chars "saldo_voluntario"]),
   (chars "aportes",
    [chars "id", chars "afiliado_rut", chars "periodo", chars "monto", chars "fecha_pago",
     chars "tipo", chars "estado", chars "empleador", chars "comision", chars "seguro",
     chars "descripcion"]),
   (chars "traspasos",
    [chars "id", chars "afiliado_rut", chars "afp_origen", chars "afp_destino",
     chars "monto_obligatorio", chars "monto_voluntario", chars "fecha_solicitud",
     chars "fecha_ejecucion", chars "estado", chars "motivo_rechazo",
     chars "numero_solicitud"]),
   (chars "reclamos",
    [chars "id", chars "numero_ticket", chars "afiliado_rut", chars "tipo", chars "canal",
     chars "descripcion", chars "monto_reclamado", chars "prioridad", chars "estado",
     chars "resolucion", chars "fecha_creacion", chars "fecha_resolucion",
     chars "agente_asignado", chars "satisfaccion_cliente"]),
   (chars "beneficiarios",
    [chars "id", chars "afiliado_rut", chars "rut_beneficiario", chars "nombre",
     chars "parentesco", chars "porcentaje_asignado", chars "es_invalido",
     chars "fecha_nacimiento", chars "vigente"]),
   (chars "pensiones",
    [chars "id", chars "afiliado_rut", chars "tipo_pension", chars "modalidad",
     chars "monto_mensual", chars "fecha_inicio", chars "fecha_termino",
     chars "estado", chars "compania_seguros"]),
   (chars "movimientos",
    [chars "id", chars "afiliado_rut", chars "tipo_movimiento", chars "monto",
     chars "saldo_anterior", chars "saldo_posterior", chars "fondo",
     chars "fecha_movimiento", chars "descripcion", chars "referencia_id"]),
   (chars "empleadores",
    [chars "rut", chars "razon_social", chars "giro", chars "direccion", chars "comuna",
     chars "region", chars "estado", chars "deuda_total", chars "cantidad_trabajadores"])]

/-- Forbidden SQL keywords (`FORBIDDEN_SQL_KEYWORDS`).  Again a Python `set`;
the rejection decision is order independent, only the reported keyword can
differ, so source order is used. -/
def FORBIDDEN_SQL_KEYWORDS : List Chars :=
  [chars "DROP", chars "DELETE", chars "UPDATE", chars "INSERT", chars "ALTER",
   chars "CREATE", chars "TRUNCATE", chars "EXEC", chars "EXECUTE",
   chars "--", chars "/*"]

/-- Maximum number of loop iterations (`MAX_ITERATIONS`). -/
def MAX_ITERATIONS : Nat := 10

/-- Loop detection threshold (`MAX_LOOP_REPEATS`). -/
def MAX_LOOP_REPEATS : Nat := 3

/-- Row limit appended to `SELECT` queries (`MAX_SQL_ROWS`). -/
def MAX_SQL_ROWS : Nat := 100

/-- ASCII decimal digit test, written as an explicit enumeration (regex `\d`
is modelled on ASCII digits; the repository's data uses only those). -/
def isDigitCh (c : Char) : Bool :=
  c = '0' || c = '1' || c = '2' || c = '3' || c = '4' ||
  c = '5' || c = '6' || c = '7' || c = '8' || c = '9'

/-- Check digit class `[\dkK]` of the RUT pattern. -/
def isRutCheckChar (c : Char) : Bool := isDigitCh c || c = 'k' || c = 'K'

/-- Mirrors `normalize_rut`: removes the dots of a Chilean RUT. -/
def normalize_rut (rut : Chars) : Chars := rut.filter (fun c => c ≠ '.')

/-- Attempted match of the regex `(\d{1,2}\.\d{3}\.\d{3}-[\dkK])'` directly
after an opening quote: returns the captured group and the remainder after
the closing quote.  The two branches (two leading digits / one leading
digit) are mutually exclusive, so the greedy `\d{1,2}` needs no backtracking. -/
def tryRut : Chars → Option (Chars × Chars)
  | d1 :: d2 :: '.' :: a :: b :: c :: '.' :: e :: f :: g :: '-' :: v :: '\'' :: rest =>
    if isDigitCh d1 && isDigitCh d2 && isDigitCh a && isDigitCh b && isDigitCh c &&
       isDigitCh e && isDigitCh f && isDigitCh g && isRutCheckChar v then
      some ([d1, d2, '.', a, b, c, '.', e, f, g, '-', v], rest)
    else Option.none
  | d1 :: '.' :: a :: b :: c :: '.' :: e :: f :: g :: '-' :: v :: '\'' :: rest =>
    if isDigitCh d1 && isDigitCh a && isDigitCh b && isDigitCh c &&
       isDigitCh e && isDigitCh f && isDigitCh g && isRutCheckChar v then
      some ([d1, '.', a, b, c, '.', e, f, g, '-', v], rest)
    else Option.none
  | _ => Option.none

/-- Fuel-based core of the `re.sub` scan of `_normalize_ruts_in_query`:
leftmost, non-overlapping occurrences of `'(\d{1,2}\.\d{3}\.\d{3}-[\dkK])'`
are replaced by their undotted form.  Fuel is the input length (every step
consumes at least one character). -/
def scanRutsF : Nat → Chars → Chars
  | _, [] => []
  | 0, l => l
  | fuel + 1, c :: cs =>
    if c = '\'' then
      match tryRut cs with
      | some (content, rest) =>
        '\'' :: normalize_rut content ++ '\'' :: scanRutsF fuel rest
      | Option.none => c :: scanRutsF fuel cs
    else c :: scanRutsF fuel cs

/-- Mirrors `SQLQueryTool._normalize_ruts_in_query`. -/
def normalizeRutsInQuery (q : Chars) : Chars := scanRutsF q.length q

/-- Mirrors `SQLValidator.validate`; returns `(is_safe, error_message)`. -/
def sqlValidate (query : Chars) : Bool × Chars :=
  let queryUpper := stripChars (upperChars query)
  if !prefixB (chars "SELECT") queryUpper then
    (false, chars "Solo consultas SELECT permitidas")
  else
    match FORBIDDEN_SQL_KEYWORDS.find? (fun kw => infixB kw queryUpper) with
    | some kw => (false, chars "Keyword prohibido: " ++ kw)
    | Option.none =>
      let queryLower := lowerChars query
      if ALLOWED_TABLES.any (fun t => infixB t queryLower) then
        (true, chars "OK")
      else
        -- the Python message interpolates the (unordered) set of tables;
        -- the text is abbreviated here, the decision is unchanged
        (false, chars "Tabla no permitida.")

/-- Result dictionary of `SQLQueryTool.execute`: either `{results, count}` on
success (`error = none`) or `{error, results: [], count: 0}`.  The `query`
key is present in both shapes in the source. -/
structure SqlResult where
  error : Option Chars
  query : Chars
  results : List PyVal
  count : Nat

/-- Mirrors `SQLQueryTool.execute`.  `db` is the asyncpg pool: it receives
the final query text and either returns rows or raises.  The function is
total: every Python exception of the `try` block is caught by the source. -/
def sqlExecute (db : Chars → Except Chars (List PyVal)) (query0 : Chars) : SqlResult :=
  let query1 := normalizeRutsInQuery query0
  let v := sqlValidate query1
  if !v.1 then
    { error := some v.2, query := query1, results := [], count := 0 }
  else
    let queryUpper := upperChars query1
    let query2 :=
      if !infixB (chars "LIMIT") queryUpper then
        rstripChar ';' query1 ++ chars " LIMIT " ++ intRepr MAX_SQL_ROWS
      else query1
    match db query2 with
    | .ok rows => { error := Option.none, query := query2, results := rows, count := rows.length }
    | .error e => { error := some e, query := query2, results := [], count := 0 }

example :
    normalizeRutsInQuery (chars "SELECT * FROM afiliados WHERE rut = '12.345.678-9'") =
      chars "SELECT * FROM afiliados WHERE rut = '12345678-9'" := rfl
example : (sqlValidate (chars "DROP TABLE afiliados")).1 = false := rfl
example : (sqlValidate (chars "SELECT nombre FROM afiliados")).1 = true := rfl
example : (sqlValidate (chars "SELECT created_at FROM afiliados")).1 = false := rfl
example :
    (sqlExecute (fun _ => .ok []) (chars "SELECT rut FROM afiliados")).query =
      chars "SELECT rut FROM afiliados LIMIT 100" := rfl

/-!
## The ReAct search agent (`src/agents/buscador/agent.py`)

`model_provider.generate` is modelled as a script `Nat → LLMResult` indexed
by the call count within one `run()` invocation (every concrete execution is
one such script; the prompt text, which the oracle may ignore, is therefore
not reproduced).  A tool call returned by the provider carries the executed
tool's result, exactly as `_handle_response_with_tools` does.
-/

/-- Outcome of one `model_provider.generate` call: free text, or the
dictionary `{tool_name, arguments, result}` built by the provider after
executing the selected registered tool. -/
inductive LLMResult where
  | text (s : Chars)
  | call (toolName : Chars) (arguments : PyVal) (result : PyVal)

/-- One recorded observation `{step, tool, input, output}`. -/
structure Obs where
  step : Nat
  tool : Chars
  input : PyVal
  output : PyVal

/-- Metadata dictionary of an `AgentResponse`; fields mirror the keys the
source puts into the various return branches (`none` = key absent). -/
structure AgentMeta where
  plan : Option Chars := Option.none
  observations : List Obs := []
  iterations : Nat := 0
  finishedBy : Option Chars := Option.none
  sources : Option PyVal := Option.none
  confidence : Option PyVal := Option.none
  errorTag : Option Chars := Option.none
  completed : Option Bool := Option.none

/-- Mirrors the pydantic `AgentResponse` (content must be a `str`). -/
structure AgentResponse where
  content : Chars
  metadata : AgentMeta

/-- Mirrors `AgenteBuscador._should_replan`. -/
def shouldReplan (observations : List Obs) : Bool :=
  match observations.getLast? with
  | Option.none => false
  | some lastObs =>
    match lastObs.output with
    | .dict kvs =>
      if pyTruthy ((dictLookup (chars "error") kvs).getD .none) then true
      else pyEq ((dictLookup (chars "count") kvs).getD (.num (-1))) (.num 0)
    | _ => false

/-- Strict lexicographic order on character lists (Python `str <`). -/
def charsLt : Chars → Chars → Bool
  | [], [] => false
  | [], _ :: _ => true
  | _ :: _, [] => false
  | a :: as_, b :: bs => if a < b then true else if a = b then charsLt as_ bs else false

/-- Insertion step of `sorted(args.items())`.  Since dict keys are unique the
tuple comparison never reaches the second component. -/
def insertByKey (p : Chars × PyVal) : List (Chars × PyVal) → List (Chars × PyVal)
  | [] => [p]
  | q :: rest => if charsLt q.1 p.1 then q :: insertByKey p rest else p :: q :: rest

/-- Mirrors `sorted(args.items())` (ascending by key). -/
def sortItems (kvs : List (Chars × PyVal)) : List (Chars × PyVal) :=
  kvs.foldl (fun acc p => insertByKey p acc) []

/-- Python `repr` of a list of `(str, value)` tuples, as interpolated by
`f"{obs['tool']}:{sorted(args.items())}"`. -/
def reprItems (kvs : List (Chars × PyVal)) : Chars :=
  '[' :: joinSep (chars ", ")
    (kvs.map (fun kv => '(' :: pyRepr (.str kv.1) ++ chars ", " ++ pyRepr kv.2 ++ [')']))
    ++ [']']

/-- Canonical signature of an observation, mirroring the local `signature`
function of `_detect_loop`. -/
def obsSignature (o : Obs) : Chars :=
  match o.input with
  | .dict kvs => o.tool ++ chars ":" ++ reprItems (sortItems kvs)
  | v => o.tool ++ chars ":" ++ pyStr v

/-- Mirrors `AgenteBuscador._detect_loop` (with its default
`max_repeats = MAX_LOOP_REPEATS`).  The source would raise on an empty
observation list with `max_repeats = 0`; `run` always passes a non-empty
list, and the unreachable case is mapped to `false`. -/
def detectLoop (observations : List Obs) (maxRepeats : Nat := MAX_LOOP_REPEATS) : Bool :=
  if observations.length < maxRepeats then false
  else
    match (observations.map obsSignature).getLast? with
    | Option.none => false
    | some lastSig => maxRepeats ≤ (observations.map obsSignature).count lastSig

/-- Python `len(x)`. -/
def pyLen : PyVal → Except Chars Nat
  | .list xs => .ok xs.length
  | .str s => .ok s.length
  | .dict kvs => .ok kvs.length
  | _ => .error (chars "TypeError: len")

/-- Python `x[0]` on the container shapes reachable here. -/
def pyIndex0 : PyVal → Except Chars PyVal
  | .list (x :: _) => .ok x
  | .list [] => .error (chars "IndexError")
  | .str (c :: _) => .ok (.str [c])
  | .str [] => .error (chars "IndexError")
  | _ => .error (chars "TypeError: index")

/-- Python `x[:3]`, yielding the items that the `for doc in docs[:3]` loop
would traverse. -/
def pySlice3 : PyVal → Except Chars (List PyVal)
  | .list xs => .ok (xs.take 3)
  | .str s => .ok ((s.take 3).map (fun c => .str [c]))
  | _ => .error (chars "TypeError: slice")

/-- Splits a digit string into groups of three, starting from the least
significant end (input already reversed). -/
def chunk3 : Chars → List Chars
  | [] => []
  | [a] => [[a]]
  | [a, b] => [[a, b]]
  | a :: b :: c :: rest => [a, b, c] :: chunk3 rest

/-- Rounding used by `format(x, ',.0f')`: round half to even. -/
def roundHalfEven (q : Rat) : Int :=
  let f := ⌊q⌋
  let frac := q - f
  if frac < 1/2 then f
  else if 1/2 < frac then f + 1
  else if f % 2 = 0 then f else f + 1

/-- Mirrors the f-string format spec `:,.0f`: no decimals, thousands
separated by commas. -/
def pyFmtMoney (v : PyVal) : Except Chars Chars :=
  match pyAsNum v with
  | some q =>
    let n := roundHalfEven q
    let ds := (Nat.repr n.natAbs).data
    let grouped := (joinSep [','] (chunk3 ds.reverse)).reverse
    .ok (if n < 0 then '-' :: grouped else grouped)
  | Option.none => .error (chars "TypeError: format")

/-- Mirrors the inner `summary_parts` additions of
`_build_summary_from_observations` for one observation. -/
def summaryPartsForObs (o : Obs) : Except Chars (List Chars) :=
  match o.output with
  | .dict kvs =>
    if pyTruthy ((dictLookup (chars "error") kvs).getD .none) then .ok []
    else do
      let countV := (dictLookup (chars "count") kvs).getD (.num 0)
      let gt ← pyGtNum countV 0
      if !gt then .ok []
      else if o.tool = chars "sql_query" then
        let results := (dictLookup (chars "results") kvs).getD (.list [])
        if !pyTruthy results then .ok []
        else do
          let first ← pyIndex0 results
          let hasNombre ← pyIn (.str (chars "nombre")) first
          if hasNombre then do
            let n1 ← pyGetE first (chars "nombre")
            let n2 ← pyGetE first (chars "apellido_paterno")
            let nombre := pyStr (n1.getD (.str [])) ++ chars " " ++ pyStr (n2.getD (.str []))
            let hasEstado ← pyIn (.str (chars "estado")) first
            let estadoLines ←
              if hasEstado then do
                let e ← pySubscrE first (chars "estado")
                pure [chars "  - Estado: " ++ pyStr e]
              else pure ([] : List Chars)
            let hasSaldo ← pyIn (.str (chars "saldo_obligatorio")) first
            let saldoLines ←
              if hasSaldo then do
                let a ← pyGetE first (chars "saldo_obligatorio")
                let b ← pyGetE first (chars "saldo_voluntario")
                let saldo ← pyAdd (a.getD (.num 0)) (b.getD (.num 0))
                let m ← pyFmtMoney saldo
                pure [chars "  - Saldo total: $" ++ m]
              else pure ([] : List Chars)
            .ok ([chars "\n📋 Datos del afiliado:", chars "  - Nombre: " ++ nombre]
                  ++ estadoLines ++ saldoLines)
          else do
            let hasMonto ← pyIn (.str (chars "monto")) first
            let cond ← if hasMonto then pyIn (.str (chars "periodo")) first else pure false
            if cond then
              .ok [chars "\n💰 Aportes encontrados: " ++ pyStr countV]
            else do
              let hasAfp ← pyIn (.str (chars "afp_origen")) first
              if hasAfp then
                .ok [chars "\n🔄 Traspasos encontrados: " ++ pyStr countV]
              else
                .ok [chars "\n📊 " ++ pyStr countV ++ chars " registros encontrados en " ++ o.tool]
      else if o.tool = chars "document_search" then
        let docs := (dictLookup (chars "documents") kvs).getD (.list [])
        if !pyTruthy docs then .ok []
        else do
          let n ← pyLen docs
          let firstThree ← pySlice3 docs
          let docLines ← firstThree.mapM (fun doc => do
            let f ← pyGetE doc (chars "filename")
            pure (chars "  - " ++ pyStr (f.getD (.str (chars "unknown")))))
          .ok ((chars "\n📁 Documentos encontrados: " ++ intRepr n) :: docLines)
      else .ok []
  | _ => .ok []

/-- Mirrors `AgenteBuscador._build_summary_from_observations`. -/
def buildSummaryFromObservations (query : Chars) (observations : List Obs) :
    Except Chars Chars := do
  let parts ← observations.mapM summaryPartsForObs
  let tail := parts.flatten
  let head := chars "Resultados de búsqueda para: " ++ query ++ chars "\n"
  let allParts :=
    if tail.isEmpty then [head, chars "\nNo se encontraron resultados relevantes."]
    else head :: tail
  .ok (joinSep (chars "\n") allParts)

/-- Mirrors `AgenteBuscador._build_partial_summary`. -/
def buildPartialSummary (query : Chars) (observations : List Obs) :
    Except Chars Chars := do
  let lines ← observations.mapM (fun o =>
    match o.output with
    | .dict kvs =>
      if pyTruthy ((dictLookup (chars "error") kvs).getD .none) then
        .ok ([] : List Chars)
      else do
        let countV := (dictLookup (chars "count") kvs).getD (.num 0)
        let gt ← pyGtNum countV 0
        if gt then
          .ok [chars "- " ++ o.tool ++ chars ": " ++ pyStr countV ++ chars " resultados"]
        else .ok []
    | _ => .ok ([] : List Chars))
  let results := lines.flatten
  let head := chars "Búsqueda parcial para: " ++ query ++ chars "\n\n"
  if !results.isEmpty then
    .ok (head ++ chars "Resultados encontrados:\n" ++ joinSep (chars "\n") results)
  else
    .ok (head ++ chars "No se encontraron resultados relevantes.")

/-- Mirrors `AgenteBuscador._generate_plan`: the prompt is consumed by the
oracle; a tool-call reply degrades to the fixed default plan. -/
def generatePlan (r : LLMResult) : Chars :=
  match r with
  | .call _ _ _ => chars "1. Buscar información relevante\n2. Consolidar resultados"
  | .text s => s

/-- Mirrors `AgenteBuscador._fallback_response`. -/
def fallbackResponse (query : Chars) (observations : List Obs)
    (plan : Option Chars) (maxIterations : Nat) : Except Chars AgentResponse := do
  let s ← buildPartialSummary query observations
  .ok { content := s ++ chars "\n\n(Búsqueda terminada por límite de "
                ++ intRepr maxIterations ++ chars " iteraciones)",
        metadata := { plan := plan, observations := observations,
                      iterations := maxIterations, completed := some false,
                      errorTag := some (chars "max_iterations_reached") } }

/-- The observation recorded for a tool call at the given 0-based loop
iteration. -/
def mkObs (iteration : Nat) (name : Chars) (args out : PyVal) : Obs :=
  { step := iteration + 1, tool := name, input := args, output := out }

/-- Decision taken after a free-text reply of the provider (the body of the
`isinstance(result, str)` branch of `run`); `cont` is the continuation of the
`for` loop (the Python `continue`). -/
def runTextStep (cont : Except Chars AgentResponse) (q : Chars) (obs : List Obs)
    (plan : Option Chars) (iteration : Nat) (s : Chars) : Except Chars AgentResponse :=
  if !obs.isEmpty && !(stripChars s).isEmpty then
    .ok { content := s,
          metadata := { plan := plan, observations := obs,
                        iterations := iteration + 1,
                        finishedBy := some (chars "text_response") } }
  else if !obs.isEmpty then do
    let c ← buildSummaryFromObservations q obs
    .ok { content := c,
          metadata := { plan := plan, observations := obs,
                        iterations := iteration + 1,
                        finishedBy := some (chars "auto_summary") } }
  else cont

/-- Observation / decision phase after a tool call (steps 3 and 4 of `run`):
record the observation, check loop detection first, then the finish check;
`cont` receives the extended history and continues the `for` loop. -/
def runCallStep (cont : List Obs → Except Chars AgentResponse) (q : Chars)
    (obs : List Obs) (plan : Option Chars) (iteration : Nat)
    (name : Chars) (args out : PyVal) : Except Chars AgentResponse :=
  -- `observations'` of the source (`obs ++ [{step, tool, input, output}]`)
  -- is written out at each use site
  if detectLoop (obs ++ [mkObs iteration name args out]) then do
    let c ← buildPartialSummary q (obs ++ [mkObs iteration name args out])
    .ok { content := c,
          metadata := { plan := plan,
                        observations := obs ++ [mkObs iteration name args out],
                        iterations := iteration + 1,
                        errorTag := some (chars "loop_detected") } }
  else if name = chars "finish" then
    -- `result["result"]["summary"]`, and the `.get` defaults for the
    -- `sources` / `confidence` keys; a non-string summary fails the pydantic
    -- validation of `AgentResponse.content`
    match out with
    | .dict kvs =>
      match dictLookup (chars "summary") kvs with
      | some (.str s) =>
        .ok { content := s,
              metadata := { plan := plan,
                            observations := obs ++ [mkObs iteration name args out],
                            iterations := iteration + 1,
                            sources := some ((dictLookup (chars "sources") kvs).getD (.list [])),
                            confidence := some ((dictLookup (chars "confidence") kvs).getD (.str (chars "medium"))) } }
      | some _ => .error (chars "ValidationError: content must be str")
      | Option.none => .error (chars "KeyError: summary")
    | _ => .error (chars "TypeError: subscript")
  else cont (obs ++ [mkObs iteration name args out])

/-- Loop body of `AgenteBuscador.run`: `fuel` is the number of remaining
iterations of `for iteration in range(self.max_iterations)`, `iteration` the
current 0-based index, `counter` the number of `generate` calls made so far
(the script index). -/
def runAux (script : Nat → LLMResult) (query : Chars) (maxIterations : Nat) :
    Nat → Nat → Nat → List Obs → Option Chars → Except Chars AgentResponse
  | 0, _, _, observations, currentPlan =>
    fallbackResponse query observations currentPlan maxIterations
  | fuel + 1, iteration, counter, observations, currentPlan =>
    -- PASO 1: PLAN (if none yet, or the last observation asks for a replan);
    -- the locals `needPlan`, `plan`, `counter1` of the source are inlined
    -- PASO 2: ACT
    match script (if currentPlan.isNone || shouldReplan observations
                  then counter + 1 else counter) with
    | .text s =>
      runTextStep
        (runAux script query maxIterations fuel (iteration + 1)
          ((if currentPlan.isNone || shouldReplan observations
            then counter + 1 else counter) + 1)
          observations
          (if currentPlan.isNone || shouldReplan observations
           then some (generatePlan (script counter)) else currentPlan))
        query observations
        (if currentPlan.isNone || shouldReplan observations
         then some (generatePlan (script counter)) else currentPlan)
        iteration s
    | .call toolName arguments toolResult =>
      runCallStep
        (fun observations' =>
          runAux script query maxIterations fuel (iteration + 1)
            ((if currentPlan.isNone || shouldReplan observations
              then counter + 1 else counter) + 1)
            observations'
            (if currentPlan.isNone || shouldReplan observations
             then some (generatePlan (script counter)) else currentPlan))
        query observations
        (if currentPlan.isNone || shouldReplan observations
         then some (generatePlan (script counter)) else currentPlan)
        iteration toolName arguments toolResult

/-- Mirrors `AgenteBuscador.run`.  `maxIterations` is `self.max_iterations`
(`MAX_ITERATIONS = 10` in the shipped configuration). -/
def runReact (script : Nat → LLMResult) (query : Chars)
    (maxIterations : Nat := MAX_ITERATIONS) : Except Chars AgentResponse :=
  runAux script query maxIterations maxIterations 0 0 [] Option.none

/-!
## Facts about the loop's signatures and detection
-/

/-- Tool names the provider can dispatch to for this agent
(`register_tools` collects the `Tool`-valued attributes of `AgenteBuscador`:
`sql_tool`, `list_docs_tool`, `read_doc_tool`, `finish_tool`). -/
def registeredToolNames : List Chars :=
  [chars "sql_query", chars "list_documents", chars "read_document", chars "finish"]

/-- Mirrors `FinishTool.execute` (default arguments `sources=None`,
`confidence="medium"`). -/
def finishExecute (summary : PyVal) (sources : PyVal := PyVal.none)
    (confidence : PyVal := .str (chars "medium")) : PyVal :=
  .dict [(chars "summary", summary),
         (chars "sources", if pyTruthy sources then sources else .list []),
         (chars "confidence", confidence),
         (chars "finished", .bool true)]

/-- Scripts that the provider can actually produce: a tool-call result always
names a registered tool (`_handle_response_with_tools` raises otherwise), and
a `finish` call carries the output of `FinishTool.execute` with its declared
`summary: string` parameter. -/
def WFScript (script : Nat → LLMResult) : Prop :=
  ∀ n name args out, script n = .call name args out →
    name ∈ registeredToolNames ∧
    (name = chars "finish" →
      ∃ s sources confidence, out = finishExecute (.str s) sources confidence)

/-- Two strings that decompose as colon-free head plus `':'` agree on the
head. -/
theorem colon_split (a : Chars) : ∀ (b x y : Chars), ':' ∉ a → ':' ∉ b →
    a ++ ':' :: x = b ++ ':' :: y → a = b := by
  induction a with
  | nil =>
    intro b x y _ hb h
    cases b with
    | nil => rfl
    | cons d ds =>
      exfalso
      simp only [List.nil_append, List.cons_append] at h
      injection h with h1 _
      exact hb (h1 ▸ List.mem_cons_self d ds)
  | cons c cs ih =>
    intro b x y ha hb h
    cases b with
    | nil =>
      exfalso
      simp only [List.cons_append, List.nil_append] at h
      injection h with h1 _
      exact ha (h1 ▸ List.mem_cons_self c cs)
    | cons d ds =>
      simp only [List.cons_append] at h
      injection h with h1 h2
      have hrec := ih ds x y (fun hm => ha (List.mem_cons_of_mem c hm))
        (fun hm => hb (List.mem_cons_of_mem d hm)) h2
      rw [h1, hrec]

/-- Tail of an observation signature after the tool name and the colon. -/
def sigRest (o : Obs) : Chars :=
  match o.input with
  | .dict kvs => reprItems (sortItems kvs)
  | v => pyStr v

/-- The observation signature decomposes as tool name, colon, rest. -/
theorem obsSignature_eq (o : Obs) :
    obsSignature o = o.tool ++ ':' :: sigRest o := by
  unfold obsSignature sigRest
  cases o.input <;> simp [chars, List.append_assoc]

/-- Signatures of observations with different colon-free tool names differ. -/
theorem obsSignature_ne_of_tool_ne (o o' : Obs)
    (ho : ':' ∉ o.tool) (ho' : ':' ∉ o'.tool) (h : o.tool ≠ o'.tool) :
    obsSignature o ≠ obsSignature o' := by
  rw [obsSignature_eq o, obsSignature_eq o']
  intro he
  exact h (colon_split _ _ _ _ ho ho' he)

/-- Registered tool names contain no colon. -/
theorem registered_colon_free (t : Chars) (ht : t ∈ registeredToolNames) :
    ':' ∉ t := by
  fin_cases ht <;> decide

/-- Occurrence count of a signature among recorded observations. -/
def countSig (obs : List Obs) (s : Chars) : Nat :=
  (obs.map obsSignature).count s

/-- Appending one observation increments exactly its own signature count. -/
theorem countSig_append (obs : List Obs) (n : Obs) (s : Chars) :
    countSig (obs ++ [n]) s =
      countSig obs s + (if obsSignature n = s then 1 else 0) := by
  unfold countSig
  rw [List.map_append, List.count_append]
  simp [List.count_cons, List.count_nil, beq_iff_eq]

/-- Loop detection on an extended list, characterised through the appended
observation's signature count. -/
theorem detectLoop_concat (obs : List Obs) (n : Obs) :
    detectLoop (obs ++ [n]) =
      (decide (MAX_LOOP_REPEATS ≤ (obs ++ [n]).length) &&
       decide (MAX_LOOP_REPEATS ≤ countSig (obs ++ [n]) (obsSignature n))) := by
  unfold detectLoop
  have hmap : (obs ++ [n]).map obsSignature = obs.map obsSignature ++ [obsSignature n] := by
    simp
  rw [hmap, List.getLast?_concat]
  unfold countSig
  rw [hmap]
  have hcl : List.count (obsSignature n) (List.map obsSignature obs) ≤ obs.length := by
    calc List.count (obsSignature n) (List.map obsSignature obs)
        ≤ (List.map obsSignature obs).length := List.count_le_length _ _
      _ = obs.length := List.length_map _ _
  by_cases hlen : (obs ++ [n]).length < MAX_LOOP_REPEATS
  · rw [if_pos hlen]
    have hne : ¬ MAX_LOOP_REPEATS ≤ (obs ++ [n]).length := by omega
    simp only [List.length_append, List.length_singleton] at hne ⊢
    simp [hne]
  · rw [if_neg hlen]
    have hge : MAX_LOOP_REPEATS ≤ (obs ++ [n]).length := by omega
    simp only [List.length_append, List.length_singleton] at hge ⊢
    simp [hge]

/-- If the appended observation's signature is new, loop detection with the
default threshold never fires on the extended list. -/
theorem detectLoop_append_new (obs : List Obs) (n : Obs)
    (h : ∀ o ∈ obs, obsSignature o ≠ obsSignature n) :
    detectLoop (obs ++ [n]) = false := by
  rw [detectLoop_concat]
  have hnotmem : obsSignature n ∉ obs.map obsSignature := by
    intro hm
    rcases List.mem_map.mp hm with ⟨o, hmem, heq⟩
    exact h o hmem heq
  have hcount : countSig (obs ++ [n]) (obsSignature n) = 1 := by
    rw [countSig_append]
    unfold countSig
    rw [List.count_eq_zero.mpr hnotmem]
    simp
  rw [hcount]
  simp [MAX_LOOP_REPEATS]

/-- Detection failure bounds the appended signature's count. -/
theorem detectLoop_false_count (obs : List Obs) (n : Obs)
    (h : detectLoop (obs ++ [n]) = false) :
    countSig (obs ++ [n]) (obsSignature n) < MAX_LOOP_REPEATS := by
  rw [detectLoop_concat] at h
  by_cases hlen : (obs ++ [n]).length < MAX_LOOP_REPEATS
  · have hle : countSig (obs ++ [n]) (obsSignature n) ≤ (obs ++ [n]).length := by
      unfold countSig
      calc (List.map obsSignature (obs ++ [n])).count (obsSignature n)
          ≤ (List.map obsSignature (obs ++ [n])).length := List.count_le_length _ _
        _ = (obs ++ [n]).length := List.length_map _ _
    omega
  · simp only [Bool.and_eq_false_iff, decide_eq_false_iff_not, not_le] at h
    rcases h with h | h
    · omega
    · exact h

/-- Lookup of the first key of a dict. -/
theorem dictLookup_head (k : Chars) (v : PyVal) (rest : List (Chars × PyVal)) :
    dictLookup k ((k, v) :: rest) = some v := by
  simp [dictLookup]

/-- Case analysis of a normally-returning `runTextStep`. -/
theorem runTextStep_cases (cont : Except Chars AgentResponse) (q : Chars)
    (obs : List Obs) (plan : Option Chars) (iteration : Nat) (s : Chars)
    (resp : AgentResponse)
    (h : runTextStep cont q obs plan iteration s = .ok resp) :
    (resp.metadata.observations = obs ∧ resp.metadata.errorTag = Option.none ∧
      resp.metadata.plan = plan) ∨
    cont = .ok resp := by
  unfold runTextStep at h
  split at h
  · left
    simp only [Except.ok.injEq] at h
    subst h
    exact ⟨rfl, rfl, rfl⟩
  · split at h
    · cases hbs : buildSummaryFromObservations q obs with
      | error e => rw [hbs] at h; simp [Bind.bind, Except.bind] at h
      | ok c =>
        rw [hbs] at h
        simp only [Bind.bind, Except.bind, Except.ok.injEq] at h
        subst h
        exact Or.inl ⟨rfl, rfl, rfl⟩
    · exact Or.inr h

/-- Case analysis of a normally-returning `runCallStep`. -/
theorem runCallStep_cases (cont : List Obs → Except Chars AgentResponse)
    (q : Chars) (obs : List Obs) (plan : Option Chars) (iteration : Nat)
    (name : Chars) (args out : PyVal) (resp : AgentResponse)
    (h : runCallStep cont q obs plan iteration name args out = .ok resp) :
    (detectLoop (obs ++ [mkObs iteration name args out]) = true ∧
      resp.metadata.observations = obs ++ [mkObs iteration name args out] ∧
      resp.metadata.errorTag = some (chars "loop_detected") ∧
      resp.metadata.iterations = iteration + 1 ∧
      resp.metadata.plan = plan ∧
      buildPartialSummary q (obs ++ [mkObs iteration name args out]) = .ok resp.content) ∨
    (detectLoop (obs ++ [mkObs iteration name args out]) = false ∧
      name = chars "finish" ∧
      (∃ kvs s, out = .dict kvs ∧
        dictLookup (chars "summary") kvs = some (.str s) ∧
        resp.content = s ∧
        resp.metadata.observations = obs ++ [mkObs iteration name args out] ∧
        resp.metadata.errorTag = Option.none)) ∨
    (detectLoop (obs ++ [mkObs iteration name args out]) = false ∧
      name ≠ chars "finish" ∧
      cont (obs ++ [mkObs iteration name args out]) = .ok resp) := by
  unfold runCallStep at h
  split at h
  · rename_i hdet
    left
    refine ⟨hdet, ?_⟩
    cases hps : buildPartialSummary q (obs ++ [mkObs iteration name args out]) with
    | error e => rw [hps] at h; simp [Bind.bind, Except.bind] at h
    | ok c =>
      rw [hps] at h
      simp only [Bind.bind, Except.bind, Except.ok.injEq] at h
      subst h
      exact ⟨rfl, rfl, rfl, rfl, rfl⟩
  · rename_i hdet
    split at h
    · rename_i hfin
      right; left
      refine ⟨by simpa using hdet, hfin, ?_⟩
      cases out with
      | dict kvs =>
        cases hlook : dictLookup (chars "summary") kvs with
        | none => simp [hlook] at h
        | some v =>
          cases v with
          | str s =>
            simp only [hlook, Except.ok.injEq] at h
            subst h
            exact ⟨kvs, s, rfl, hlook, rfl, rfl, rfl⟩
          | none => simp [hlook] at h
          | bool b => simp [hlook] at h
          | num n => simp [hlook] at h
          | list xs => simp [hlook] at h
          | dict d => simp [hlook] at h
      | none => simp at h
      | bool b => simp at h
      | num n => simp at h
      | str s => simp at h
      | list xs => simp at h
    · rename_i hfin
      right; right
      exact ⟨by simpa using hdet, hfin, h⟩

/-- Shape of the budget-exhausted fallback response. -/
theorem fallbackResponse_shape (q : Chars) (obs : List Obs) (plan : Option Chars)
    (maxIter : Nat) (resp : AgentResponse)
    (h : fallbackResponse q obs plan maxIter = .ok resp) :
    resp.metadata.observations = obs ∧
    resp.metadata.errorTag = some (chars "max_iterations_reached") := by
  unfold fallbackResponse at h
  cases hps : buildPartialSummary q obs with
  | error e => rw [hps] at h; simp [Bind.bind, Except.bind] at h
  | ok s =>
    rw [hps] at h
    simp only [Bind.bind, Except.bind, Except.ok.injEq] at h
    subst h
    exact ⟨rfl, rfl⟩

/-- Core invariant for claim C6: starting from a finish-free observation
list, whenever `run` returns normally and some recorded observation invoked
the `finish` tool, the response is the finish tool's structured summary (the
loop-detection check, although performed first in the source, cannot fire on
a `finish` observation because `finish` returns on first invocation and
registered tool names are colon-free, so no other signature collides). -/
theorem runAux_finish_inv (script : Nat → LLMResult) (q : Chars) (maxIter : Nat)
    (hwf : WFScript script) :
    ∀ fuel iteration counter obs plan resp,
      (∀ o ∈ obs, o.tool ∈ registeredToolNames ∧ o.tool ≠ chars "finish") →
      runAux script q maxIter fuel iteration counter obs plan = .ok resp →
      ∀ o ∈ resp.metadata.observations, o.tool = chars "finish" →
        ∃ s sources confidence,
          o.output = finishExecute (.str s) sources confidence ∧
          resp.content = s ∧ resp.metadata.errorTag = Option.none := by
  intro fuel
  induction fuel with
  | zero =>
    intro iteration counter obs plan resp hg hrun o ho hf
    exfalso
    rw [runAux] at hrun
    rcases fallbackResponse_shape _ _ _ _ _ hrun with ⟨hobs, _⟩
    rw [hobs] at ho
    exact (hg o ho).2 hf
  | succ fuel ih =>
    intro iteration counter obs plan resp hg hrun o ho hf
    rw [runAux] at hrun
    cases hres : script (if (plan.isNone || shouldReplan obs) = true then counter + 1 else counter) with
    | text s =>
      rw [hres] at hrun
      replace hrun :
          runTextStep
            (runAux script q maxIter fuel (iteration + 1)
              ((if (plan.isNone || shouldReplan obs) = true then counter + 1 else counter) + 1) obs
              (if (plan.isNone || shouldReplan obs) = true
                then some (generatePlan (script counter)) else plan))
            q obs
            (if (plan.isNone || shouldReplan obs) = true
              then some (generatePlan (script counter)) else plan)
            iteration s = .ok resp := hrun
      rcases runTextStep_cases _ _ _ _ _ _ _ hrun with ⟨hobs, _, _⟩ | hcont
      · rw [hobs] at ho
        exact absurd hf (hg o ho).2
      · exact ih _ _ _ _ _ hg hcont o ho hf
    | call name args out =>
      rw [hres] at hrun
      replace hrun :
          runCallStep
            (fun observations' =>
              runAux script q maxIter fuel (iteration + 1)
                ((if (plan.isNone || shouldReplan obs) = true then counter + 1 else counter) + 1)
                observations'
                (if (plan.isNone || shouldReplan obs) = true
                  then some (generatePlan (script counter)) else plan))
            q obs
            (if (plan.isNone || shouldReplan obs) = true
              then some (generatePlan (script counter)) else plan)
            iteration name args out = .ok resp := hrun
      have hwfc := hwf _ _ _ _ hres
      rcases runCallStep_cases _ _ _ _ _ _ _ _ _ hrun with
        ⟨hdet, hobs, _, _, _, _⟩ | ⟨hdet, hfin, kvs, s, hkvs, hlook, hcont, hobs, herr⟩ | ⟨hdet, hfin, hcont⟩
      · -- loop detection fired: impossible on a `finish` observation
        rw [hobs] at ho
        rcases List.mem_append.mp ho with hmem | hmem
        · exact absurd hf (hg o hmem).2
        · exfalso
          have ho' : o = mkObs iteration name args out := by simpa using hmem
          have hfin : name = chars "finish" := by
            rw [ho'] at hf; exact hf
          have hnofire : detectLoop (obs ++ [mkObs iteration name args out]) = false := by
            apply detectLoop_append_new
            intro o' ho''
            apply obsSignature_ne_of_tool_ne
            · exact registered_colon_free _ (hg o' ho'').1
            · show ':' ∉ name
              rw [hfin]; decide
            · show o'.tool ≠ name
              rw [hfin]; exact (hg o' ho'').2
          rw [hnofire] at hdet
          exact absurd hdet (by simp)
      · -- the finish branch returned the structured summary
        rcases hwfc.2 hfin with ⟨s0, sources, confidence, hout⟩
        have hkv2 : kvs =
            [(chars "summary", .str s0),
             (chars "sources", if pyTruthy sources then sources else .list []),
             (chars "confidence", confidence),
             (chars "finished", .bool true)] := by
          rw [hout] at hkvs
          unfold finishExecute at hkvs
          injection hkvs with hkvs2
          exact hkvs2.symm
        have hs : s = s0 := by
          rw [hkv2, dictLookup_head] at hlook
          injection hlook with hlook'
          injection hlook' with hlook2
          exact hlook2.symm
        rw [hobs] at ho
        rcases List.mem_append.mp ho with hmem | hmem
        · exact absurd hf (hg o hmem).2
        · have ho' : o = mkObs iteration name args out := by simpa using hmem
          refine ⟨s0, sources, confidence, ?_, by rw [hcont, hs], herr⟩
          rw [ho']
          exact hout
      · -- a regular tool call: recurse with the extended history
        apply ih _ _ _ _ _ ?_ hcont o ho hf
        intro o' ho''
        rcases List.mem_append.mp ho'' with hmem | hmem
        · exact hg o' hmem
        · have ho' : o' = mkObs iteration name args out := by simpa using hmem
          rw [ho']
          exact ⟨hwfc.1, hfin⟩

/-- Helper for claim C8: observation steps are strictly increasing, at least
1, and the history only ever grows by appending (the starting list is a
prefix of the final list). -/
theorem runAux_steps_inv (script : Nat → LLMResult) (q : Chars) (maxIter : Nat) :
    ∀ fuel iteration counter obs plan resp,
      (obs.map (fun o => o.step)).Pairwise (· < ·) →
      (∀ o ∈ obs, 1 ≤ o.step ∧ o.step ≤ iteration) →
      runAux script q maxIter fuel iteration counter obs plan = .ok resp →
      obs <+: resp.metadata.observations ∧
      (resp.metadata.observations.map (fun o => o.step)).Pairwise (· < ·) ∧
      (∀ o ∈ resp.metadata.observations, 1 ≤ o.step) := by
  intro fuel
  induction fuel with
  | zero =>
    intro iteration counter obs plan resp hpw hbd hrun
    rw [runAux] at hrun
    rcases fallbackResponse_shape _ _ _ _ _ hrun with ⟨hobs, _⟩
    rw [hobs]
    exact ⟨List.prefix_rfl, hpw, fun o ho => (hbd o ho).1⟩
  | succ fuel ih =>
    intro iteration counter obs plan resp hpw hbd hrun
    rw [runAux] at hrun
    cases hres : script (if (plan.isNone || shouldReplan obs) = true then counter + 1 else counter) with
    | text s =>
      rw [hres] at hrun
      replace hrun :
          runTextStep
            (runAux script q maxIter fuel (iteration + 1)
              ((if (plan.isNone || shouldReplan obs) = true then counter + 1 else counter) + 1) obs
              (if (plan.isNone || shouldReplan obs) = true
                then some (generatePlan (script counter)) else plan))
            q obs
            (if (plan.isNone || shouldReplan obs) = true
              then some (generatePlan (script counter)) else plan)
            iteration s = .ok resp := hrun
      rcases runTextStep_cases _ _ _ _ _ _ _ hrun with ⟨hobs, _, _⟩ | hcont
      · rw [hobs]
        exact ⟨List.prefix_rfl, hpw, fun o ho => (hbd o ho).1⟩
      · exact ih _ _ _ _ _ hpw (fun o ho => ⟨(hbd o ho).1, le_trans (hbd o ho).2 (by omega)⟩) hcont
    | call name args out =>
      rw [hres] at hrun
      replace hrun :
          runCallStep
            (fun observations' =>
              runAux script q maxIter fuel (iteration + 1)
                ((if (plan.isNone || shouldReplan obs) = true then counter + 1 else counter) + 1)
                observations'
                (if (plan.isNone || shouldReplan obs) = true
                  then some (generatePlan (script counter)) else plan))
            q obs
            (if (plan.isNone || shouldReplan obs) = true
              then some (generatePlan (script counter)) else plan)
            iteration name args out = .ok resp := hrun
      have hpw2 : ((obs ++ [mkObs iteration name args out]).map (fun o => o.step)).Pairwise (· < ·) := by
        rw [List.map_append]
        rw [List.pairwise_append]
        refine ⟨hpw, by simp, ?_⟩
        intro x hx y hy
        rcases List.mem_map.mp hx with ⟨ox, hox, rfl⟩
        simp only [List.map_cons, List.map_nil, List.mem_singleton] at hy
        subst hy
        have := (hbd ox hox).2
        simp only [mkObs]
        omega
      have hbd2 : ∀ o ∈ obs ++ [mkObs iteration name args out],
          1 ≤ o.step ∧ o.step ≤ iteration + 1 := by
        intro o ho
        rcases List.mem_append.mp ho with hm | hm
        · exact ⟨(hbd o hm).1, le_trans (hbd o hm).2 (by omega)⟩
        · have : o = mkObs iteration name args out := by simpa using hm
          rw [this]
          simp [mkObs]
      rcases runCallStep_cases _ _ _ _ _ _ _ _ _ hrun with
        ⟨_, hobs, _, _, _, _⟩ | ⟨_, _, _, _, _, _, _, hobs, _⟩ | ⟨_, _, hcont⟩
      · rw [hobs]
        exact ⟨⟨[mkObs iteration name args out], rfl⟩, hpw2, fun o ho => (hbd2 o ho).1⟩
      · rw [hobs]
        exact ⟨⟨[mkObs iteration name args out], rfl⟩, hpw2, fun o ho => (hbd2 o ho).1⟩
      · rcases ih _ _ _ _ _ hpw2 hbd2 hcont with ⟨hpre, hp2, hb2⟩
        exact ⟨List.IsPrefix.trans ⟨[mkObs iteration name args out], rfl⟩ hpre, hp2, hb2⟩

/-- Helper for claim C1: if every signature occurs fewer than `MAX_LOOP_REPEATS`
times in the starting history, then in any normally returned response no
signature count exceeds the threshold, and a count that reaches the threshold
only occurs in the loop-detected partial-summary response. -/
theorem runAux_count_inv (script : Nat → LLMResult) (q : Chars) (maxIter : Nat) :
    ∀ fuel iteration counter obs plan resp,
      (∀ s, countSig obs s < MAX_LOOP_REPEATS) →
      runAux script q maxIter fuel iteration counter obs plan = .ok resp →
      (∀ s, countSig resp.metadata.observations s ≤ MAX_LOOP_REPEATS) ∧
      ((∃ s, countSig resp.metadata.observations s = MAX_LOOP_REPEATS) →
        resp.metadata.errorTag = some (chars "loop_detected") ∧
        buildPartialSummary q resp.metadata.observations = .ok resp.content) := by
  intro fuel
  induction fuel with
  | zero =>
    intro iteration counter obs plan resp hcnt hrun
    rw [runAux] at hrun
    rcases fallbackResponse_shape _ _ _ _ _ hrun with ⟨hobs, _⟩
    rw [hobs]
    exact ⟨fun s => le_of_lt (hcnt s), fun ⟨s, hs⟩ => absurd hs (by have := hcnt s; omega)⟩
  | succ fuel ih =>
    intro iteration counter obs plan resp hcnt hrun
    rw [runAux] at hrun
    cases hres : script (if (plan.isNone || shouldReplan obs) = true then counter + 1 else counter) with
    | text s =>
      rw [hres] at hrun
      replace hrun :
          runTextStep
            (runAux script q maxIter fuel (iteration + 1)
              ((if (plan.isNone || shouldReplan obs) = true then counter + 1 else counter) + 1) obs
              (if (plan.isNone || shouldReplan obs) = true
                then some (generatePlan (script counter)) else plan))
            q obs
            (if (plan.isNone || shouldReplan obs) = true
              then some (generatePlan (script counter)) else plan)
            iteration s = .ok resp := hrun
      rcases runTextStep_cases _ _ _ _ _ _ _ hrun with ⟨hobs, _, _⟩ | hcont
      · rw [hobs]
        exact ⟨fun s => le_of_lt (hcnt s), fun ⟨s, hs⟩ => absurd hs (by have := hcnt s; omega)⟩
      · exact ih _ _ _ _ _ hcnt hcont
    | call name args out =>
      rw [hres] at hrun
      replace hrun :
          runCallStep
            (fun observations' =>
              runAux script q maxIter fuel (iteration + 1)
                ((if (plan.isNone || shouldReplan obs) = true then counter + 1 else counter) + 1)
                observations'
                (if (plan.isNone || shouldReplan obs) = true
                  then some (generatePlan (script counter)) else plan))
            q obs
            (if (plan.isNone || shouldReplan obs) = true
              then some (generatePlan (script counter)) else plan)
            iteration name args out = .ok resp := hrun
      have hub : ∀ s, countSig (obs ++ [mkObs iteration name args out]) s ≤ MAX_LOOP_REPEATS := by
        intro s
        rw [countSig_append]
        have := hcnt s
        split <;> omega
      rcases runCallStep_cases _ _ _ _ _ _ _ _ _ hrun with
        ⟨_, hobs, herr, _, _, hsum⟩ | ⟨hdet, _, _, _, _, _, _, hobs, _⟩ | ⟨hdet, _, hcont⟩
      · rw [hobs]
        refine ⟨hub, fun _ => ⟨herr, ?_⟩⟩
        exact hsum
      · -- finish return without detection: all counts stay strictly below
        have hlt : ∀ s, countSig (obs ++ [mkObs iteration name args out]) s < MAX_LOOP_REPEATS := by
          intro s
          by_cases hsig : obsSignature (mkObs iteration name args out) = s
          · rw [← hsig]
            exact detectLoop_false_count _ _ hdet
          · rw [countSig_append, if_neg hsig]
            have := hcnt s
            omega
        rw [hobs]
        exact ⟨fun s => le_of_lt (hlt s), fun ⟨s, hs⟩ => absurd hs (by have := hlt s; omega)⟩
      · -- continue: the extended history still satisfies the strict bound
        apply ih _ _ _ _ _ ?_ hcont
        intro s
        by_cases hsig : obsSignature (mkObs iteration name args out) = s
        · rw [← hsig]
          exact detectLoop_false_count _ _ hdet
        · rw [countSig_append, if_neg hsig]
          have := hcnt s
          omega

/-- Default plan text used when plan generation receives a tool call. -/
def defaultPlan : Chars := chars "1. Buscar información relevante\n2. Consolidar resultados"

theorem detectLoop_one (o : Obs) : detectLoop [o] = false := by
  simp [detectLoop, MAX_LOOP_REPEATS]

theorem detectLoop_two (o o' : Obs) : detectLoop [o, o'] = false := by
  simp [detectLoop, MAX_LOOP_REPEATS]

theorem detectLoop_three_same (name : Chars) (args out : PyVal) :
    detectLoop [mkObs 0 name args out, mkObs 1 name args out, mkObs 2 name args out] = true := by
  have hsig : ∀ i j : Nat, obsSignature (mkObs i name args out) = obsSignature (mkObs j name args out) := by
    intro i j
    rw [obsSignature_eq, obsSignature_eq]
    rfl
  simp [detectLoop, MAX_LOOP_REPEATS, List.count_cons, hsig 1 2, hsig 0 2]

theorem react_const_script (name : Chars) (args out : PyVal) (q : Chars)
    (maxIter : Nat) (hiter : MAX_LOOP_REPEATS ≤ maxIter) (hfin : name ≠ chars "finish") :
    runReact (fun _ => .call name args out) q maxIter =
      Except.map
        (fun c => { content := c,
                    metadata := { plan := some defaultPlan,
                                  observations := [mkObs 0 name args out, mkObs 1 name args out, mkObs 2 name args out],
                                  iterations := 3,
                                  errorTag := some (chars "loop_detected") } })
        (buildPartialSummary q [mkObs 0 name args out, mkObs 1 name args out, mkObs 2 name args out]) := by
  have h3 : maxIter = (maxIter - 3) + 2 + 1 := by
    simp [MAX_LOOP_REPEATS] at hiter
    omega
  unfold runReact
  rw [h3]
  rw [runAux]
  simp only [Option.isNone_none, Bool.true_or, if_pos, List.nil_append]
  rw [runCallStep.eq_def]
  simp only [List.nil_append]
  rw [detectLoop_one]
  rw [if_neg (show ¬ (false = true) by simp)]
  rw [if_neg hfin]
  rw [show maxIter - 3 + 2 = (maxIter - 3 + 1) + 1 from rfl]
  rw [runAux]
  simp only [Option.isNone_some, Bool.false_or, ite_self]
  rw [runCallStep.eq_def]
  simp only [List.cons_append, List.nil_append]
  rw [detectLoop_two]
  rw [if_neg (show ¬ (false = true) by simp)]
  rw [if_neg hfin]
  rw [show maxIter - 3 + 1 = (maxIter - 3) + 1 from rfl]
  rw [runAux]
  simp only [Option.isNone_some, Bool.false_or, ite_self]
  rw [runCallStep.eq_def]
  simp only [List.cons_append, List.nil_append]
  rw [detectLoop_three_same]
  rw [if_pos (show (true = true) from rfl)]
  cases hps : buildPartialSummary q [mkObs 0 name args out, mkObs 1 name args out, mkObs 2 name args out] with
  | error e => simp [Bind.bind, Except.bind, Except.map]
  | ok c => simp [Bind.bind, Except.bind, Except.map, defaultPlan, generatePlan]

/-!
## Claim theorems for the reasoning loop (C1, C6, C8)
-/

/-- C1.  Loop termination by repetition detection, in two parts.  (a) For
every provider script and every normally returned response: no canonical
signature ever occurs more than `MAX_LOOP_REPEATS` (3) times among the
recorded observations, and as soon as a signature's count reaches the
threshold the returned response is exactly the loop-terminated partial
summary (metadata error tag `loop_detected`, content built by
`_build_partial_summary`) — i.e. the loop stops at the very observation
whose signature reaches the threshold.  (b) If the provider keeps selecting
the same non-finish action (same tool name, same arguments), the run returns
that partial summary after exactly 3 iterations for every iteration budget
of at least 3, regardless of `max_iterations`. -/
theorem react_loop_detection_terminates :
    (∀ (script : Nat → LLMResult) (q : Chars) (maxIter : Nat) (resp : AgentResponse),
      runReact script q maxIter = .ok resp →
      (∀ s, countSig resp.metadata.observations s ≤ MAX_LOOP_REPEATS) ∧
      ((∃ s, countSig resp.metadata.observations s = MAX_LOOP_REPEATS) →
        resp.metadata.errorTag = some (chars "loop_detected") ∧
        buildPartialSummary q resp.metadata.observations = .ok resp.content)) ∧
    (∀ (name : Chars) (args out : PyVal) (q : Chars) (maxIter : Nat),
      MAX_LOOP_REPEATS ≤ maxIter → name ≠ chars "finish" →
      runReact (fun _ => .call name args out) q maxIter =
        Except.map
          (fun c => { content := c,
                      metadata := { plan := some defaultPlan,
                                    observations := [mkObs 0 name args out, mkObs 1 name args out,
                                                     mkObs 2 name args out],
                                    iterations := 3,
                                    errorTag := some (chars "loop_detected") } })
          (buildPartialSummary q [mkObs 0 name args out, mkObs 1 name args out,
                                  mkObs 2 name args out])) := by
  constructor
  · intro script q maxIter resp hrun
    exact runAux_count_inv script q maxIter maxIter 0 0 [] Option.none resp
      (by intro s; simp [countSig, MAX_LOOP_REPEATS]) hrun
  · intro name args out q maxIter hiter hfin
    exact react_const_script name args out q maxIter hiter hfin

/-- Witness for C1: the repeating `sql_query` script is stopped with the
loop-detected partial summary after three identical actions, within a
10-iteration budget. -/
theorem react_loop_detection_terminates_witness :
    runReact
      (fun _ => .call (chars "sql_query")
        (.dict [(chars "query", .str (chars "SELECT rut FROM afiliados"))])
        (.dict [(chars "count", .num 0), (chars "results", .list [])]))
      (chars "consulta") 10 =
      Except.map
        (fun c => { content := c,
                    metadata := { plan := some defaultPlan,
                                  observations :=
                                    [mkObs 0 (chars "sql_query")
                                       (.dict [(chars "query", .str (chars "SELECT rut FROM afiliados"))])
                                       (.dict [(chars "count", .num 0), (chars "results", .list [])]),
                                     mkObs 1 (chars "sql_query")
                                       (.dict [(chars "query", .str (chars "SELECT rut FROM afiliados"))])
                                       (.dict [(chars "count", .num 0), (chars "results", .list [])]),
                                     mkObs 2 (chars "sql_query")
                                       (.dict [(chars "query", .str (chars "SELECT rut FROM afiliados"))])
                                       (.dict [(chars "count", .num 0), (chars "results", .list [])])],
                                  iterations := 3,
                                  errorTag := some (chars "loop_detected") } })
        (buildPartialSummary (chars "consulta")
          [mkObs 0 (chars "sql_query")
             (.dict [(chars "query", .str (chars "SELECT rut FROM afiliados"))])
             (.dict [(chars "count", .num 0), (chars "results", .list [])]),
           mkObs 1 (chars "sql_query")
             (.dict [(chars "query", .str (chars "SELECT rut FROM afiliados"))])
             (.dict [(chars "count", .num 0), (chars "results", .list [])]),
           mkObs 2 (chars "sql_query")
             (.dict [(chars "query", .str (chars "SELECT rut FROM afiliados"))])
             (.dict [(chars "count", .num 0), (chars "results", .list [])])]) :=
  react_loop_detection_terminates.2 _ _ _ _ _ (by decide) (by decide)

/-- Script used to exercise claim C6: one plan, one SQL action, then the
finish tool. -/
def c6Script : Nat → LLMResult := fun n =>
  if n = 0 then .text (chars "1. Consultar la base\n2. Responder")
  else if n = 1 then
    .call (chars "sql_query")
      (.dict [(chars "query", .str (chars "SELECT rut FROM afiliados"))])
      (.dict [(chars "count", .num 1), (chars "results", .list [.dict [(chars "rut", .str (chars "1-9"))]])])
  else
    .call (chars "finish")
      (.dict [(chars "summary", .str (chars "listo"))])
      (finishExecute (.str (chars "listo")) (.list [.str (chars "sql")]) (.str (chars "high")))

/-- The C6 script is producible by the provider. -/
theorem c6Script_wf : WFScript c6Script := by
  intro n name args out h
  unfold c6Script at h
  split at h
  · exact absurd h (by simp)
  · split at h
    · injection h with h1 h2 h3
      subst h1
      refine ⟨by decide, ?_⟩
      intro hc
      exact absurd hc (by decide)
    · injection h with h1 h2 h3
      subst h1
      subst h3
      exact ⟨by decide, fun _ => ⟨chars "listo", .list [.str (chars "sql")], .str (chars "high"), rfl⟩⟩

/-- Response of the C6 sample run. -/
def c6Resp : AgentResponse :=
  match runReact c6Script (chars "consulta") 10 with
  | .ok r => r
  | .error _ => { content := [], metadata := {} }

/-- C6.  Whenever the `finish` tool is the action recorded in the
observations of a normally returned run (for any script the provider can
actually produce: registered tool names, finish outputs shaped by
`FinishTool.execute`), the run's response is the finish tool's structured
summary and not a loop-detected partial summary.  The source checks loop
detection before the finish check, but a finish signature can never reach
the repetition threshold: `finish` returns on its first invocation, and no
other registered (colon-free) tool name can collide with its signature. -/
theorem react_finish_priority (script : Nat → LLMResult) (q : Chars)
    (maxIter : Nat) (resp : AgentResponse)
    (hwf : WFScript script)
    (hrun : runReact script q maxIter = .ok resp) :
    ∀ o ∈ resp.metadata.observations, o.tool = chars "finish" →
      ∃ s sources confidence,
        o.output = finishExecute (.str s) sources confidence ∧
        resp.content = s ∧ resp.metadata.errorTag = Option.none :=
  runAux_finish_inv script q maxIter hwf maxIter 0 0 [] Option.none resp
    (by intro o ho; exact absurd ho (List.not_mem_nil o)) hrun

/-- Witness for C6: on the sample script the run returns, and the finish
observation yields the finish summary. -/
theorem react_finish_priority_witness :
    runReact c6Script (chars "consulta") 10 = .ok c6Resp ∧
    (∀ o ∈ c6Resp.metadata.observations, o.tool = chars "finish" →
      ∃ s sources confidence,
        o.output = finishExecute (.str s) sources confidence ∧
        c6Resp.content = s ∧ c6Resp.metadata.errorTag = Option.none) :=
  ⟨rfl, react_finish_priority c6Script (chars "consulta") 10 c6Resp c6Script_wf rfl⟩

/-- Script used to refute the "starting at 1" part of claim C8: the first
loop iteration produces a free-text reply with no observations yet, so the
first recorded observation carries step 2. -/
def c8Script : Nat → LLMResult := fun n =>
  if n = 0 then .text (chars "1. Buscar\n2. Responder")
  else if n = 1 then .text (chars "hola")
  else if n = 2 then
    .call (chars "sql_query")
      (.dict [(chars "query", .str (chars "SELECT rut FROM afiliados"))])
      (.dict [(chars "count", .num 1), (chars "results", .list [.dict [(chars "rut", .str (chars "1-9"))]])])
  else .text (chars "respuesta final")

/-- C8 counterexample: a run whose only recorded observation has step 2, so
the step sequence does not start at 1. -/
theorem react_steps_counterexample :
    (runReact c8Script (chars "consulta") 10).map
        (fun r => r.metadata.observations.map (fun o => o.step)) = .ok [2] := rfl

/-- Response of the C8 witness run. -/
def c8Resp : AgentResponse :=
  match runReact c8Script (chars "consulta") 10 with
  | .ok r => r
  | .error _ => { content := [], metadata := {} }

/-- C8 (amended).  Within one `run()` invocation the recorded steps are
strictly increasing and at least 1 (each equals the 1-based index of the
loop iteration that recorded it, so the sequence starts at 1 only when the
first action iteration produced a tool call), and the observation list is
append-only: from any intermediate state of the loop whose history satisfies
the step invariant, the history at that state is a prefix of the
observations of the returned response. -/
theorem react_steps_amended (script : Nat → LLMResult) (q : Chars)
    (maxIter fuel iteration counter : Nat) (obs : List Obs) (plan : Option Chars)
    (resp : AgentResponse)
    (hpw : (obs.map (fun o => o.step)).Pairwise (· < ·))
    (hbd : ∀ o ∈ obs, 1 ≤ o.step ∧ o.step ≤ iteration)
    (hrun : runAux script q maxIter fuel iteration counter obs plan = .ok resp) :
    obs <+: resp.metadata.observations ∧
    (resp.metadata.observations.map (fun o => o.step)).Pairwise (· < ·) ∧
    (∀ o ∈ resp.metadata.observations, 1 ≤ o.step) :=
  runAux_steps_inv script q maxIter fuel iteration counter obs plan resp hpw hbd hrun

/-- Witness for the amended C8, instantiated at the start state of the
sample run. -/
theorem react_steps_amended_witness :
    [] <+: c8Resp.metadata.observations ∧
    (c8Resp.metadata.observations.map (fun o => o.step)).Pairwise (· < ·) ∧
    (∀ o ∈ c8Resp.metadata.observations, 1 ≤ o.step) :=
  react_steps_amended c8Script (chars "consulta") 10 10 0 0 [] Option.none c8Resp
    (by simp) (by simp) rfl

/-!
## Document indexer: page batching (`AgentRAGIndexer._create_batches`) — C9
-/

/-- Fuel-based core of `_create_batches` (fuel = list length suffices when
`batchSize ≥ 1`, since each step consumes at least one element). -/
def createBatchesF {α : Type} : Nat → List α → Nat → List (List α)
  | _, [], _ => []
  | 0, ps, _ => [ps]
  | fuel + 1, p :: ps, batchSize =>
    ((p :: ps).take batchSize) :: createBatchesF fuel ((p :: ps).drop batchSize) batchSize

/-- Mirrors `AgentRAGIndexer._create_batches`
(`for i in range(0, len(pages), batch_size): batches.append(pages[i:i+batch_size])`).
Python raises `ValueError` for `batch_size = 0`; that case (excluded by every
caller and by the claim) is mapped to `[]`. -/
def createBatches {α : Type} (pages : List α) (batchSize : Nat) : List (List α) :=
  if batchSize = 0 then [] else createBatchesF pages.length pages batchSize

/-- Partition property of the fuelled batching core. -/
theorem createBatchesF_spec {α : Type} :
    ∀ (fuel : Nat) (pages : List α) (batchSize : Nat),
      pages.length ≤ fuel → 1 ≤ batchSize →
      (createBatchesF fuel pages batchSize).flatten = pages ∧
      (∀ b ∈ (createBatchesF fuel pages batchSize).dropLast, b.length = batchSize) ∧
      (pages ≠ [] → ∃ bl, (createBatchesF fuel pages batchSize).getLast? = some bl ∧
        1 ≤ bl.length ∧ bl.length ≤ batchSize) := by
  intro fuel
  induction fuel with
  | zero =>
    intro pages batchSize hlen _
    have : pages = [] := List.length_eq_zero.mp (Nat.le_zero.mp hlen)
    subst this
    exact ⟨rfl, by simp [createBatchesF], fun h => absurd rfl h⟩
  | succ fuel ih =>
    intro pages batchSize hlen hbs
    cases pages with
    | nil => exact ⟨rfl, by simp [createBatchesF], fun h => absurd rfl h⟩
    | cons p ps =>
      have hdrop : ((p :: ps).drop batchSize).length ≤ fuel := by
        simp only [List.length_drop, List.length_cons] at *
        omega
      rcases ih ((p :: ps).drop batchSize) batchSize hdrop hbs with ⟨hjoin, hsize, hlast⟩
      rw [show createBatchesF (fuel + 1) (p :: ps) batchSize =
          ((p :: ps).take batchSize) :: createBatchesF fuel ((p :: ps).drop batchSize) batchSize
          from rfl]
      refine ⟨by rw [List.flatten_cons, hjoin, List.take_append_drop], ?_, ?_⟩
      · -- every batch except possibly the last has exactly `batchSize` pages
        cases hrest : createBatchesF fuel ((p :: ps).drop batchSize) batchSize with
        | nil => simp
        | cons b bs =>
          rw [List.dropLast_cons_of_ne_nil (by simp)]
          intro x hx
          rcases List.mem_cons.mp hx with rfl | hx'
          · -- the head batch is full because more pages follow
            have hne : (p :: ps).drop batchSize ≠ [] := by
              intro hcon
              rw [hcon] at hrest
              simp [createBatchesF] at hrest
            have hgt : batchSize < (p :: ps).length := by
              by_contra hle
              push_neg at hle
              exact hne (List.drop_eq_nil_of_le hle)
            rw [List.length_take]
            omega
          · rw [hrest] at hsize
            exact hsize x hx'
      · intro _
        cases hrest : createBatchesF fuel ((p :: ps).drop batchSize) batchSize with
        | nil =>
          refine ⟨(p :: ps).take batchSize, by simp [hrest], ?_, ?_⟩
          · rw [List.length_take]
            simp only [List.length_cons]
            omega
          · rw [List.length_take]
            omega
        | cons b bs =>
          have hne : (p :: ps).drop batchSize ≠ [] := by
            intro hcon
            rw [hcon] at hrest
            simp [createBatchesF] at hrest
          rcases hlast hne with ⟨bl, hbl, h1, h2⟩
          refine ⟨bl, ?_, h1, h2⟩
          rw [List.getLast?_cons_cons]
          rw [hrest] at hbl
          exact hbl

/-- C9.  For every non-empty page list and `batch_size ≥ 1`,
`_create_batches` splits the list into consecutive batches whose
concatenation is the original list; every batch except possibly the last has
exactly `batch_size` elements and the last has between 1 and `batch_size`. -/
theorem create_batches_partition {α : Type} (pages : List α) (batchSize : Nat)
    (hbs : 1 ≤ batchSize) (hne : pages ≠ []) :
    (createBatches pages batchSize).flatten = pages ∧
    (∀ b ∈ (createBatches pages batchSize).dropLast, b.length = batchSize) ∧
    (∃ bl, (createBatches pages batchSize).getLast? = some bl ∧
      1 ≤ bl.length ∧ bl.length ≤ batchSize) := by
  unfold createBatches
  rw [if_neg (by omega)]
  rcases createBatchesF_spec pages.length pages batchSize le_rfl hbs with ⟨h1, h2, h3⟩
  exact ⟨h1, h2, h3 hne⟩

/-- Witness for C9 on a concrete five-element list with batch size 2. -/
theorem create_batches_partition_witness :
    (createBatches [10, 20, 30, 40, 50] 2).flatten = [10, 20, 30, 40, 50] ∧
    (∀ b ∈ (createBatches [10, 20, 30, 40, 50] 2).dropLast, b.length = 2) ∧
    (∃ bl, (createBatches [10, 20, 30, 40, 50] 2).getLast? = some bl ∧
      1 ≤ bl.length ∧ bl.length ≤ 2) :=
  create_batches_partition [10, 20, 30, 40, 50] 2 (by decide) (by decide)


/-!
## Preservation of validation checks under RUT normalization (claims C2, C10)

`SQLQueryTool.execute` validates the *normalized* query while the spec's
conditions speak about the input query.  The lemmas below show that each
check of `SQLValidator.validate` gives the same verdict on both, because a
replaced span consists of digits, dots, a dash and a check character
between two quotes, and so can neither contain nor complete an occurrence
of any forbidden keyword, table name, `SELECT` prefix or `LIMIT` token.
-/

/-- Helper: a Boolean equality follows from the corresponding iff. -/
theorem bool_eq_of_iff (a b : Bool) (h : a = true ↔ b = true) : a = b := by
  cases a <;> cases b <;> simp_all

/-- Characters that can occur inside a matched RUT capture group. -/
def spanCharB (c : Char) : Bool :=
  isDigitCh c || c = '.' || c = '-' || c = 'k' || c = 'K'

theorem isDigitCh_upper (c : Char) (h : isDigitCh c = true) : pyUpperChar c = c := by
  simp only [isDigitCh, Bool.or_eq_true, decide_eq_true_eq, or_assoc] at h
  rcases h with rfl | rfl | rfl | rfl | rfl | rfl | rfl | rfl | rfl | rfl <;> rfl

theorem isDigitCh_ne_dash (c : Char) (h : isDigitCh c = true) : c ≠ '-' := by
  simp only [isDigitCh, Bool.or_eq_true, decide_eq_true_eq, or_assoc] at h
  rcases h with rfl | rfl | rfl | rfl | rfl | rfl | rfl | rfl | rfl | rfl <;> decide

theorem isDigitCh_ne_dot (c : Char) (h : isDigitCh c = true) : c ≠ '.' := by
  simp only [isDigitCh, Bool.or_eq_true, decide_eq_true_eq, or_assoc] at h
  rcases h with rfl | rfl | rfl | rfl | rfl | rfl | rfl | rfl | rfl | rfl <;> decide

theorem rutCheck_upper_ne_dash (c : Char) (h : isRutCheckChar c = true) :
    pyUpperChar c ≠ '-' := by
  simp only [isRutCheckChar, Bool.or_eq_true, decide_eq_true_eq, or_assoc] at h
  rcases h with h | rfl | rfl
  · rw [isDigitCh_upper c h]; exact isDigitCh_ne_dash c h
  · decide
  · decide

theorem rutCheck_ne_dot (c : Char) (h : isRutCheckChar c = true) : c ≠ '.' := by
  simp only [isRutCheckChar, Bool.or_eq_true, decide_eq_true_eq, or_assoc] at h
  rcases h with h | rfl | rfl
  · exact isDigitCh_ne_dot _ h
  · decide
  · decide

theorem rutCheck_spanChar (c : Char) (h : isRutCheckChar c = true) :
    spanCharB c = true := by
  simp only [isRutCheckChar, Bool.or_eq_true, decide_eq_true_eq, or_assoc] at h
  simp only [spanCharB, Bool.or_eq_true, decide_eq_true_eq, or_assoc]
  tauto

/-- The uppercase image of every span character lies in a fixed small set. -/
theorem spanCharB_upper (c : Char) (h : spanCharB c = true) :
    pyUpperChar c ∈ chars "0123456789.-K" := by
  simp only [spanCharB, isDigitCh, Bool.or_eq_true, decide_eq_true_eq, or_assoc] at h
  rcases h with rfl | rfl | rfl | rfl | rfl | rfl | rfl | rfl | rfl | rfl | rfl | rfl | rfl | rfl
    <;> decide

/-- The lowercase image of every span character lies in a fixed small set. -/
theorem spanCharB_lower (c : Char) (h : spanCharB c = true) :
    pyLowerChar c ∈ chars "0123456789.-k" := by
  simp only [spanCharB, isDigitCh, Bool.or_eq_true, decide_eq_true_eq, or_assoc] at h
  rcases h with rfl | rfl | rfl | rfl | rfl | rfl | rfl | rfl | rfl | rfl | rfl | rfl | rfl | rfl
    <;> decide

set_option maxHeartbeats 1600000 in
/-- Structure of a successful RUT match: the consumed input, the character
classes of the capture group, and the single dash of the group (before and
after dot removal, viewed through `upper`). -/
theorem tryRut_spec (cs content rest : Chars) (h : tryRut cs = some (content, rest)) :
    cs = content ++ '\'' :: rest ∧ (∀ ch ∈ content, spanCharB ch = true) ∧
      (content.map pyUpperChar).count '-' = 1 ∧
      ((normalize_rut content).map pyUpperChar).count '-' = 1 := by
  rw [tryRut.eq_def] at h
  split at h
  case h_1 d1 d2 a b c e f g v rest' =>
    split at h
    case isTrue hg =>
      simp only [Option.some.injEq, Prod.mk.injEq] at h
      obtain ⟨rfl, rfl⟩ := h
      simp only [Bool.and_eq_true, and_assoc] at hg
      obtain ⟨h1, h2, h3, h4, h5, h6, h7, h8, h9⟩ := hg
      have n1 := isDigitCh_ne_dash _ h1; have n2 := isDigitCh_ne_dash _ h2
      have n3 := isDigitCh_ne_dash _ h3; have n4 := isDigitCh_ne_dash _ h4
      have n5 := isDigitCh_ne_dash _ h5; have n6 := isDigitCh_ne_dash _ h6
      have n7 := isDigitCh_ne_dash _ h7; have n8 := isDigitCh_ne_dash _ h8
      have u1 := isDigitCh_upper _ h1; have u2 := isDigitCh_upper _ h2
      have u3 := isDigitCh_upper _ h3; have u4 := isDigitCh_upper _ h4
      have u5 := isDigitCh_upper _ h5; have u6 := isDigitCh_upper _ h6
      have u7 := isDigitCh_upper _ h7; have u8 := isDigitCh_upper _ h8
      have d1' := isDigitCh_ne_dot _ h1; have d2' := isDigitCh_ne_dot _ h2
      have d3' := isDigitCh_ne_dot _ h3; have d4' := isDigitCh_ne_dot _ h4
      have d5' := isDigitCh_ne_dot _ h5; have d6' := isDigitCh_ne_dot _ h6
      have d7' := isDigitCh_ne_dot _ h7; have d8' := isDigitCh_ne_dot _ h8
      have nv := rutCheck_upper_ne_dash _ h9
      have vd := rutCheck_ne_dot _ h9
      have hm : pyUpperChar '-' = '-' := by decide
      have hp : pyUpperChar '.' = '.' := by decide
      refine ⟨rfl, ?_, ?_, ?_⟩
      · intro ch hch
        simp only [List.mem_cons, List.not_mem_nil, or_false] at hch
        rcases hch with rfl | rfl | rfl | rfl | rfl | rfl | rfl | rfl | rfl | rfl | rfl | rfl
        · simp [spanCharB, h1]
        · simp [spanCharB, h2]
        · rfl
        · simp [spanCharB, h3]
        · simp [spanCharB, h4]
        · simp [spanCharB, h5]
        · rfl
        · simp [spanCharB, h6]
        · simp [spanCharB, h7]
        · simp [spanCharB, h8]
        · rfl
        · exact rutCheck_spanChar _ h9
      · simp [List.count_cons, u1, u2, u3, u4, u5, u6, u7, u8, n1, n2, n3, n4, n5,
          n6, n7, n8, nv, hm, hp]
      · simp [normalize_rut, List.filter_cons, d1', d2', d3', d4', d5', d6', d7', d8',
          List.count_cons, u1, u2, u3, u4, u5, u6, u7, u8, n1, n2, n3, n4, n5, n6, n7,
          n8, nv, vd, hm, hp]
    case isFalse => exact Option.noConfusion h
  case h_2 d1 a b c e f g v rest' _ =>
    split at h
    case isTrue hg =>
      simp only [Option.some.injEq, Prod.mk.injEq] at h
      obtain ⟨rfl, rfl⟩ := h
      simp only [Bool.and_eq_true, and_assoc] at hg
      obtain ⟨h1, h3, h4, h5, h6, h7, h8, h9⟩ := hg
      have n1 := isDigitCh_ne_dash _ h1
      have n3 := isDigitCh_ne_dash _ h3; have n4 := isDigitCh_ne_dash _ h4
      have n5 := isDigitCh_ne_dash _ h5; have n6 := isDigitCh_ne_dash _ h6
      have n7 := isDigitCh_ne_dash _ h7; have n8 := isDigitCh_ne_dash _ h8
      have u1 := isDigitCh_upper _ h1
      have u3 := isDigitCh_upper _ h3; have u4 := isDigitCh_upper _ h4
      have u5 := isDigitCh_upper _ h5; have u6 := isDigitCh_upper _ h6
      have u7 := isDigitCh_upper _ h7; have u8 := isDigitCh_upper _ h8
      have d1' := isDigitCh_ne_dot _ h1
      have d3' := isDigitCh_ne_dot _ h3; have d4' := isDigitCh_ne_dot _ h4
      have d5' := isDigitCh_ne_dot _ h5; have d6' := isDigitCh_ne_dot _ h6
      have d7' := isDigitCh_ne_dot _ h7; have d8' := isDigitCh_ne_dot _ h8
      have nv := rutCheck_upper_ne_dash _ h9
      have vd := rutCheck_ne_dot _ h9
      have hm : pyUpperChar '-' = '-' := by decide
      have hp : pyUpperChar '.' = '.' := by decide
      refine ⟨rfl, ?_, ?_, ?_⟩
      · intro ch hch
        simp only [List.mem_cons, List.not_mem_nil, or_false] at hch
        rcases hch with rfl | rfl | rfl | rfl | rfl | rfl | rfl | rfl | rfl | rfl | rfl
        · simp [spanCharB, h1]
        · rfl
        · simp [spanCharB, h3]
        · simp [spanCharB, h4]
        · simp [spanCharB, h5]
        · rfl
        · simp [spanCharB, h6]
        · simp [spanCharB, h7]
        · simp [spanCharB, h8]
        · rfl
        · exact rutCheck_spanChar _ h9
      · simp [List.count_cons, u1, u3, u4, u5, u6, u7, u8, n1, n3, n4, n5, n6, n7,
          n8, nv, hm, hp]
      · simp [normalize_rut, List.filter_cons, d1', d3', d4', d5', d6', d7', d8',
          List.count_cons, u1, u3, u4, u5, u6, u7, u8, n1, n3, n4, n5, n6, n7, n8, nv,
          vd, hm, hp]
    case isFalse => exact Option.noConfusion h
  case h_3 => exact Option.noConfusion h

/-- A quote-free pattern that is not a substring of `seg` is not a prefix of
`seg ++ '\'' :: T` either: it would have to reach the quote. -/
theorem prefixB_quote_block (pat seg T : Chars) (hne : pat ≠ []) (hq : '\'' ∉ pat)
    (hinf : infixB pat seg = false) : prefixB pat (seg ++ '\'' :: T) = false := by
  by_contra hcon
  rw [Bool.not_eq_false, prefixB_iff] at hcon
  by_cases hlen : pat.length ≤ seg.length
  · have h1 := hcon
    rw [List.prefix_iff_eq_take] at h1
    rw [List.take_append_eq_append_take, Nat.sub_eq_zero_of_le hlen, List.take_zero,
      List.append_nil] at h1
    have hpre : pat <+: seg := h1 ▸ List.take_prefix _ _
    have : infixB pat seg = true := (infixB_iff _ _).mpr hpre.isInfix
    rw [hinf] at this
    exact Bool.noConfusion this
  · push_neg at hlen
    obtain ⟨t, ht⟩ := hcon
    have e1 : (pat ++ t)[seg.length]? = pat[seg.length]? :=
      List.getElem?_append_left hlen
    rw [ht] at e1
    have e2 : (seg ++ '\'' :: T)[seg.length]? = some '\'' := by
      rw [List.getElem?_append_right (Nat.le_refl _)]
      simp
    rw [e2] at e1
    exact hq (List.getElem?_mem e1.symm)

/-- Skipping a non-matching block: a quote-free pattern absent from `seg`
occurs in `seg ++ '\'' :: T` exactly when it occurs in `T`. -/
theorem infixB_quote_block (pat : Chars) (hne : pat ≠ []) (hq : '\'' ∉ pat) :
    ∀ seg T, infixB pat seg = false → infixB pat (seg ++ '\'' :: T) = infixB pat T := by
  intro seg
  induction seg with
  | nil =>
    intro T _
    cases pat with
    | nil => exact absurd rfl hne
    | cons p ps =>
      have hp : p ≠ '\'' := fun h => hq (h ▸ List.mem_cons_self _ _)
      simp [infixB, prefixB, hp]
  | cons a seg' ih =>
    intro T hfalse
    have hfalse' : infixB pat seg' = false := by
      cases hcheck : infixB pat seg' with
      | false => rfl
      | true =>
        have := infixB_of_infix pat seg' (a :: seg') ⟨[a], [], by simp⟩ hcheck
        rw [hfalse] at this
        exact Bool.noConfusion this
    show infixB pat (a :: (seg' ++ '\'' :: T)) = infixB pat T
    rw [infixB]
    rw [show a :: (seg' ++ '\'' :: T) = (a :: seg') ++ '\'' :: T from rfl]
    rw [prefixB_quote_block pat (a :: seg') T hne hq hfalse]
    rw [ih T hfalse']
    simp

/-- RUT normalization preserves prefix tests for quote-free patterns, through
any character map fixing the quote. -/
theorem scanF_prefixB (f : Char → Char) (hfq : f '\'' = '\'') :
    ∀ fuel (pat q : Chars), '\'' ∉ pat → q.length ≤ fuel →
      prefixB pat ((scanRutsF fuel q).map f) = prefixB pat (q.map f) := by
  intro fuel
  induction fuel with
  | zero =>
    intro pat q _ hlen
    have : q = [] := List.eq_nil_of_length_eq_zero (Nat.le_zero.mp hlen)
    subst this; rfl
  | succ fuel ih =>
    intro pat q hq hlen
    cases q with
    | nil => rfl
    | cons c cs =>
      have hcs : cs.length ≤ fuel := Nat.succ_le_succ_iff.mp hlen
      rw [scanRutsF]
      by_cases hc : c = '\''
      · subst hc
        rw [if_pos rfl]
        cases htr : tryRut cs with
        | none =>
          cases pat with
          | nil => rfl
          | cons p ps =>
            have hp : p ≠ '\'' := fun h => hq (h ▸ List.mem_cons_self _ _)
            simp [prefixB, hfq, hp]
        | some pr =>
          obtain ⟨content, rest⟩ := pr
          cases pat with
          | nil => rfl
          | cons p ps =>
            have hp : p ≠ '\'' := fun h => hq (h ▸ List.mem_cons_self _ _)
            simp [prefixB, hfq, hp]
      · rw [if_neg hc]
        cases pat with
        | nil => rfl
        | cons p ps =>
          have hps : '\'' ∉ ps := fun h => hq (List.mem_cons_of_mem _ h)
          simp only [List.map_cons, prefixB]
          rw [ih ps cs hps hcs]

/-- RUT normalization preserves substring tests, through any character map
fixing the quote, for quote-free patterns that cannot occur inside a
replaced span (neither in the dotted capture group nor in its undotted
replacement). -/
theorem scanF_infixB (f : Char → Char) (hfq : f '\'' = '\'') (pat : Chars)
    (hne : pat ≠ []) (hq : '\'' ∉ pat)
    (hspan : ∀ cs content rest, tryRut cs = some (content, rest) →
       infixB pat (content.map f) = false ∧
       infixB pat ((normalize_rut content).map f) = false) :
    ∀ fuel q, q.length ≤ fuel →
      infixB pat ((scanRutsF fuel q).map f) = infixB pat (q.map f) := by
  intro fuel
  induction fuel with
  | zero =>
    intro q hlen
    have : q = [] := List.eq_nil_of_length_eq_zero (Nat.le_zero.mp hlen)
    subst this; rfl
  | succ fuel ih =>
    intro q hlen
    cases q with
    | nil => rfl
    | cons c cs =>
      have hcs : cs.length ≤ fuel := Nat.succ_le_succ_iff.mp hlen
      rw [scanRutsF]
      by_cases hc : c = '\''
      · subst hc
        rw [if_pos rfl]
        cases htr : tryRut cs with
        | none =>
          cases pat with
          | nil => exact absurd rfl hne
          | cons p ps =>
            have hp : p ≠ '\'' := fun h => hq (h ▸ List.mem_cons_self _ _)
            simp only [List.map_cons, infixB, hfq, prefixB]
            rw [ih cs hcs]
            simp [hp]
        | some pr =>
          obtain ⟨content, rest⟩ := pr
          obtain ⟨hcseq, _, _, _⟩ := tryRut_spec cs content rest htr
          have hrest : rest.length ≤ fuel := by
            rw [hcseq] at hcs
            simp only [List.length_append, List.length_cons] at hcs
            omega
          obtain ⟨hsp1, hsp2⟩ := hspan cs content rest htr
          rw [hcseq]
          cases pat with
          | nil => exact absurd rfl hne
          | cons p ps =>
            have hp : p ≠ '\'' := fun h => hq (h ▸ List.mem_cons_self _ _)
            simp only [List.append_eq, List.map_cons, List.map_append, infixB, hfq, prefixB]
            rw [infixB_quote_block (p :: ps) hne hq ((normalize_rut content).map f)
              ((scanRutsF fuel rest).map f) hsp2]
            rw [infixB_quote_block (p :: ps) hne hq (content.map f) (rest.map f) hsp1]
            rw [ih rest hrest]
            simp [hp]
      · rw [if_neg hc]
        simp only [List.map_cons, infixB]
        rw [ih cs hcs]
        cases pat with
        | nil => rfl
        | cons p ps =>
          have hps : '\'' ∉ ps := fun h => hq (List.mem_cons_of_mem _ h)
          simp only [prefixB]
          rw [scanF_prefixB f hfq fuel ps cs hps hcs]

theorem dropWhile_eq_self_of (p : Char → Bool) :
    ∀ l : Chars, (∀ c ∈ l, p c = false) → l.dropWhile p = l := by
  intro l h
  induction l with
  | nil => rfl
  | cons a as _ => simp [List.dropWhile_cons, h a (List.mem_cons_self a as)]

/-- `lstrip` does not affect substring tests for nonempty whitespace-free
patterns. -/
theorem lstrip_infixB (pat : Chars) (hne : pat ≠ [])
    (hws : ∀ c ∈ pat, pyIsSpace c = false) :
    ∀ u, infixB pat (lstripChars u) = infixB pat u := by
  intro u
  induction u with
  | nil => rfl
  | cons c u' ih =>
    by_cases hc : pyIsSpace c = true
    · have hstep : lstripChars (c :: u') = lstripChars u' := by
        simp [lstripChars, List.dropWhile_cons, hc]
      rw [hstep, ih]
      cases pat with
      | nil => exact absurd rfl hne
      | cons p ps =>
        have hp : p ≠ c := fun h => by
          rw [← h] at hc
          rw [hws p (List.mem_cons_self _ _)] at hc
          exact Bool.noConfusion hc
        simp [infixB, prefixB, hp]
    · have hcf : pyIsSpace c = false := Bool.not_eq_true _ ▸ eq_false_of_ne_true hc
      simp [lstripChars, List.dropWhile_cons, hcf]

/-- Substring tests commute with reversal. -/
theorem infixB_reverse (p l : Chars) : infixB p.reverse l.reverse = infixB p l := by
  apply bool_eq_of_iff
  rw [infixB_iff, infixB_iff]
  exact List.reverse_infix

/-- `rstrip` does not affect substring tests for nonempty whitespace-free
patterns. -/
theorem rstrip_infixB (pat : Chars) (hne : pat ≠ [])
    (hws : ∀ c ∈ pat, pyIsSpace c = false) :
    ∀ u, infixB pat (rstripChars u) = infixB pat u := by
  intro u
  have hne' : pat.reverse ≠ [] := by simpa using hne
  have hws' : ∀ c ∈ pat.reverse, pyIsSpace c = false := fun c hc =>
    hws c (List.mem_reverse.mp hc)
  have h1 : rstripChars u = (lstripChars u.reverse).reverse := rfl
  rw [h1]
  have h2 := infixB_reverse pat.reverse (lstripChars u.reverse)
  rw [List.reverse_reverse] at h2
  rw [h2, lstrip_infixB pat.reverse hne' hws' u.reverse, infixB_reverse]

/-- `strip` does not affect substring tests for nonempty whitespace-free
patterns. -/
theorem strip_infixB (pat : Chars) (hne : pat ≠ [])
    (hws : ∀ c ∈ pat, pyIsSpace c = false) (u : Chars) :
    infixB pat (stripChars u) = infixB pat u := by
  unfold stripChars
  rw [rstrip_infixB pat hne hws, lstrip_infixB pat hne hws]

/-- `rstrip` removes characters strictly after any whitespace-free prefix. -/
theorem rstrip_append_nows (pat t : Chars) (hws : ∀ c ∈ pat, pyIsSpace c = false) :
    rstripChars (pat ++ t) = pat ++ rstripChars t := by
  cases hpat : pat with
  | nil => simp
  | cons p ps =>
    rw [← hpat]
    show (lstripChars (pat ++ t).reverse).reverse = pat ++ (lstripChars t.reverse).reverse
    rw [List.reverse_append]
    unfold lstripChars
    rw [List.dropWhile_append]
    by_cases he : (t.reverse.dropWhile pyIsSpace).isEmpty
    · rw [if_pos he]
      have hself : pat.reverse.dropWhile pyIsSpace = pat.reverse :=
        dropWhile_eq_self_of _ _ (fun c hc => hws c (List.mem_reverse.mp hc))
      rw [hself, List.reverse_reverse]
      rw [List.isEmpty_iff] at he
      rw [he]
      simp
    · rw [if_neg he]
      rw [List.reverse_append, List.reverse_reverse]

/-- `rstrip` does not affect prefix tests for whitespace-free patterns. -/
theorem prefixB_rstrip (pat v : Chars) (hws : ∀ c ∈ pat, pyIsSpace c = false) :
    prefixB pat (rstripChars v) = prefixB pat v := by
  apply bool_eq_of_iff
  rw [prefixB_iff, prefixB_iff]
  constructor
  · intro h
    have hsuf : v.reverse.dropWhile pyIsSpace <:+ v.reverse := List.dropWhile_suffix _
    have hpre : (v.reverse.dropWhile pyIsSpace).reverse <+: v.reverse.reverse :=
      List.reverse_prefix.mpr hsuf
    rw [List.reverse_reverse] at hpre
    exact h.trans hpre
  · intro h
    obtain ⟨t, rfl⟩ := h
    rw [rstrip_append_nows pat t hws]
    exact ⟨_, rfl⟩

/-- RUT normalization preserves prefix tests after `lstrip`, for quote-free
patterns, through any character map fixing the quote. -/
theorem scanF_prefix_lstrip (f : Char → Char) (hfq : f '\'' = '\'') :
    ∀ fuel (pat q : Chars), '\'' ∉ pat → q.length ≤ fuel →
      prefixB pat (lstripChars ((scanRutsF fuel q).map f)) =
        prefixB pat (lstripChars (q.map f)) := by
  intro fuel
  induction fuel with
  | zero =>
    intro pat q _ hlen
    have : q = [] := List.eq_nil_of_length_eq_zero (Nat.le_zero.mp hlen)
    subst this; rfl
  | succ fuel ih =>
    intro pat q hq hlen
    cases q with
    | nil => rfl
    | cons c cs =>
      have hcs : cs.length ≤ fuel := Nat.succ_le_succ_iff.mp hlen
      rw [scanRutsF]
      by_cases hc : c = '\''
      · subst hc
        rw [if_pos rfl]
        have hqs : pyIsSpace '\'' = false := by decide
        cases htr : tryRut cs with
        | none =>
          simp only [List.map_cons, hfq, lstripChars, List.dropWhile_cons, hqs]
          cases pat with
          | nil => rfl
          | cons p ps =>
            have hp : p ≠ '\'' := fun h => hq (h ▸ List.mem_cons_self _ _)
            simp [prefixB, hp]
        | some pr =>
          obtain ⟨content, rest⟩ := pr
          simp only [List.map_cons, hfq, lstripChars, List.dropWhile_cons, hqs]
          cases pat with
          | nil => rfl
          | cons p ps =>
            have hp : p ≠ '\'' := fun h => hq (h ▸ List.mem_cons_self _ _)
            simp [prefixB, hp, hfq, List.dropWhile_cons, hqs]
      · rw [if_neg hc]
        by_cases hw : pyIsSpace (f c) = true
        · have hstep : ∀ X : Chars, lstripChars (f c :: X) = lstripChars X := by
            intro X
            simp [lstripChars, List.dropWhile_cons, hw]
          simp only [List.map_cons, hstep]
          exact ih pat cs hq hcs
        · have hwf : pyIsSpace (f c) = false := Bool.not_eq_true _ ▸ eq_false_of_ne_true hw
          have hstep : ∀ X : Chars, lstripChars (f c :: X) = f c :: X := by
            intro X
            simp [lstripChars, List.dropWhile_cons, hwf]
          simp only [List.map_cons, hstep]
          cases pat with
          | nil => rfl
          | cons p ps =>
            have hps : '\'' ∉ ps := fun h => hq (List.mem_cons_of_mem _ h)
            simp only [prefixB]
            rw [scanF_prefixB f hfq fuel ps cs hps hcs]

/-- A pattern containing a character outside the uppercase span alphabet
cannot occur inside a replaced span (uppercase view). -/
theorem hspan_upper (pat : Chars) (bad : Char) (hmem : bad ∈ pat)
    (hbad : bad ∉ chars "0123456789.-K") :
    ∀ cs content rest, tryRut cs = some (content, rest) →
      infixB pat (content.map pyUpperChar) = false ∧
      infixB pat ((normalize_rut content).map pyUpperChar) = false := by
  intro cs content rest htr
  obtain ⟨_, hsp, _, _⟩ := tryRut_spec cs content rest htr
  constructor
  · cases hck : infixB pat (content.map pyUpperChar) with
    | false => rfl
    | true =>
      have hm := mem_of_infixB _ _ bad hck hmem
      obtain ⟨c, hc, hce⟩ := List.mem_map.mp hm
      exact absurd (hce ▸ spanCharB_upper c (hsp c hc)) hbad
  · cases hck : infixB pat ((normalize_rut content).map pyUpperChar) with
    | false => rfl
    | true =>
      have hm := mem_of_infixB _ _ bad hck hmem
      obtain ⟨c, hc, hce⟩ := List.mem_map.mp hm
      have hcc : c ∈ content := (List.mem_filter.mp hc).1
      exact absurd (hce ▸ spanCharB_upper c (hsp c hcc)) hbad

/-- A pattern containing a character outside the lowercase span alphabet
cannot occur inside a replaced span (lowercase view). -/
theorem hspan_lower (pat : Chars) (bad : Char) (hmem : bad ∈ pat)
    (hbad : bad ∉ chars "0123456789.-k") :
    ∀ cs content rest, tryRut cs = some (content, rest) →
      infixB pat (content.map pyLowerChar) = false ∧
      infixB pat ((normalize_rut content).map pyLowerChar) = false := by
  intro cs content rest htr
  obtain ⟨_, hsp, _, _⟩ := tryRut_spec cs content rest htr
  constructor
  · cases hck : infixB pat (content.map pyLowerChar) with
    | false => rfl
    | true =>
      have hm := mem_of_infixB _ _ bad hck hmem
      obtain ⟨c, hc, hce⟩ := List.mem_map.mp hm
      exact absurd (hce ▸ spanCharB_lower c (hsp c hc)) hbad
  · cases hck : infixB pat ((normalize_rut content).map pyLowerChar) with
    | false => rfl
    | true =>
      have hm := mem_of_infixB _ _ bad hck hmem
      obtain ⟨c, hc, hce⟩ := List.mem_map.mp hm
      have hcc : c ∈ content := (List.mem_filter.mp hc).1
      exact absurd (hce ▸ spanCharB_lower c (hsp c hcc)) hbad

/-- The span contains exactly one dash, so the comment marker `--` cannot
occur inside it. -/
theorem hspan_dd :
    ∀ cs content rest, tryRut cs = some (content, rest) →
      infixB (chars "--") (content.map pyUpperChar) = false ∧
      infixB (chars "--") ((normalize_rut content).map pyUpperChar) = false := by
  intro cs content rest htr
  obtain ⟨_, _, hc1, hc2⟩ := tryRut_spec cs content rest htr
  have key : ∀ l : Chars, l.count '-' = 1 → infixB (chars "--") l = false := by
    intro l hcount
    cases hck : infixB (chars "--") l with
    | false => rfl
    | true =>
      rw [infixB_iff] at hck
      obtain ⟨u, v, huv⟩ := hck
      rw [← huv] at hcount
      have hdd : chars "--" = ['-', '-'] := rfl
      rw [hdd] at hcount
      simp [List.count_append, List.count_cons] at hcount
      omega
  exact ⟨key _ hc1, key _ hc2⟩

/-- Forbidden keywords are unaffected by RUT normalization (uppercase view). -/
theorem kw_norm_infix_eq (kw q : Chars) (hkw : kw ∈ FORBIDDEN_SQL_KEYWORDS) :
    infixB kw (upperChars (normalizeRutsInQuery q)) = infixB kw (upperChars q) := by
  have hfq : pyUpperChar '\'' = '\'' := by decide
  fin_cases hkw
  · exact scanF_infixB pyUpperChar hfq (chars "DROP") (by decide) (by decide)
      (hspan_upper (chars "DROP") 'D' (by decide) (by decide)) q.length q (Nat.le_refl _)
  · exact scanF_infixB pyUpperChar hfq (chars "DELETE") (by decide) (by decide)
      (hspan_upper (chars "DELETE") 'D' (by decide) (by decide)) q.length q (Nat.le_refl _)
  · exact scanF_infixB pyUpperChar hfq (chars "UPDATE") (by decide) (by decide)
      (hspan_upper (chars "UPDATE") 'U' (by decide) (by decide)) q.length q (Nat.le_refl _)
  · exact scanF_infixB pyUpperChar hfq (chars "INSERT") (by decide) (by decide)
      (hspan_upper (chars "INSERT") 'I' (by decide) (by decide)) q.length q (Nat.le_refl _)
  · exact scanF_infixB pyUpperChar hfq (chars "ALTER") (by decide) (by decide)
      (hspan_upper (chars "ALTER") 'A' (by decide) (by decide)) q.length q (Nat.le_refl _)
  · exact scanF_infixB pyUpperChar hfq (chars "CREATE") (by decide) (by decide)
      (hspan_upper (chars "CREATE") 'C' (by decide) (by decide)) q.length q (Nat.le_refl _)
  · exact scanF_infixB pyUpperChar hfq (chars "TRUNCATE") (by decide) (by decide)
      (hspan_upper (chars "TRUNCATE") 'T' (by decide) (by decide)) q.length q (Nat.le_refl _)
  · exact scanF_infixB pyUpperChar hfq (chars "EXEC") (by decide) (by decide)
      (hspan_upper (chars "EXEC") 'E' (by decide) (by decide)) q.length q (Nat.le_refl _)
  · exact scanF_infixB pyUpperChar hfq (chars "EXECUTE") (by decide) (by decide)
      (hspan_upper (chars "EXECUTE") 'E' (by decide) (by decide)) q.length q (Nat.le_refl _)
  · exact scanF_infixB pyUpperChar hfq (chars "--") (by decide) (by decide)
      hspan_dd q.length q (Nat.le_refl _)
  · exact scanF_infixB pyUpperChar hfq (chars "/*") (by decide) (by decide)
      (hspan_upper (chars "/*") '/' (by decide) (by decide)) q.length q (Nat.le_refl _)

/-- Allow-listed table names are unaffected by RUT normalization (lowercase
view). -/
theorem table_norm_infix (t q : Chars) (ht : t ∈ ALLOWED_TABLES) :
    infixB t (lowerChars (normalizeRutsInQuery q)) = infixB t (lowerChars q) := by
  have hfq : pyLowerChar '\'' = '\'' := by decide
  fin_cases ht
  · exact scanF_infixB pyLowerChar hfq (chars "afiliados") (by decide) (by decide)
      (hspan_lower (chars "afiliados") 'a' (by decide) (by decide)) q.length q (Nat.le_refl _)
  · exact scanF_infixB pyLowerChar hfq (chars "aportes") (by decide) (by decide)
      (hspan_lower (chars "aportes") 'a' (by decide) (by decide)) q.length q (Nat.le_refl _)
  · exact scanF_infixB pyLowerChar hfq (chars "traspasos") (by decide) (by decide)
      (hspan_lower (chars "traspasos") 't' (by decide) (by decide)) q.length q (Nat.le_refl _)
  · exact scanF_infixB pyLowerChar hfq (chars "reclamos") (by decide) (by decide)
      (hspan_lower (chars "reclamos") 'r' (by decide) (by decide)) q.length q (Nat.le_refl _)
  · exact scanF_infixB pyLowerChar hfq (chars "beneficiarios") (by decide) (by decide)
      (hspan_lower (chars "beneficiarios") 'b' (by decide) (by decide)) q.length q (Nat.le_refl _)
  · exact scanF_infixB pyLowerChar hfq (chars "pensiones") (by decide) (by decide)
      (hspan_lower (chars "pensiones") 'p' (by decide) (by decide)) q.length q (Nat.le_refl _)
  · exact scanF_infixB pyLowerChar hfq (chars "movimientos") (by decide) (by decide)
      (hspan_lower (chars "movimientos") 'm' (by decide) (by decide)) q.length q (Nat.le_refl _)
  · exact scanF_infixB pyLowerChar hfq (chars "empleadores") (by decide) (by decide)
      (hspan_lower (chars "empleadores") 'e' (by decide) (by decide)) q.length q (Nat.le_refl _)
  · exact scanF_infixB pyLowerChar hfq (chars "vista_resumen_afiliado") (by decide) (by decide)
      (hspan_lower (chars "vista_resumen_afiliado") 'v' (by decide) (by decide))
      q.length q (Nat.le_refl _)
  · exact scanF_infixB pyLowerChar hfq (chars "vista_empleadores_morosos") (by decide) (by decide)
      (hspan_lower (chars "vista_empleadores_morosos") 'v' (by decide) (by decide))
      q.length q (Nat.le_refl _)

/-- The `LIMIT` check is unaffected by RUT normalization. -/
theorem limit_norm_infix_eq (q : Chars) :
    infixB (chars "LIMIT") (upperChars (normalizeRutsInQuery q)) =
      infixB (chars "LIMIT") (upperChars q) :=
  scanF_infixB pyUpperChar (by decide) (chars "LIMIT") (by decide) (by decide)
    (hspan_upper (chars "LIMIT") 'L' (by decide) (by decide)) q.length q (Nat.le_refl _)

/-- The `SELECT` prefix check is unaffected by RUT normalization. -/
theorem select_norm_prefix (q : Chars) :
    prefixB (chars "SELECT") (stripChars (upperChars (normalizeRutsInQuery q))) =
      prefixB (chars "SELECT") (stripChars (upperChars q)) := by
  have hws : ∀ c ∈ chars "SELECT", pyIsSpace c = false := by decide
  unfold stripChars
  rw [prefixB_rstrip _ _ hws, prefixB_rstrip _ _ hws]
  exact scanF_prefix_lstrip pyUpperChar (by decide) q.length (chars "SELECT") q
    (by decide) (Nat.le_refl _)

/-- Keyword checks ignore the outer `strip`. -/
theorem kw_strip_infix_eq (kw u : Chars) (hkw : kw ∈ FORBIDDEN_SQL_KEYWORDS) :
    infixB kw (stripChars u) = infixB kw u := by
  fin_cases hkw <;> exact strip_infixB _ (by decide) (by decide) u

/-- Characterization of `SQLValidator.validate` acceptance. -/
theorem sqlValidate_true_iff (u : Chars) :
    (sqlValidate u).1 = true ↔
      prefixB (chars "SELECT") (stripChars (upperChars u)) = true ∧
      (∀ kw ∈ FORBIDDEN_SQL_KEYWORDS, infixB kw (stripChars (upperChars u)) = false) ∧
      ALLOWED_TABLES.any (fun t => infixB t (lowerChars u)) = true := by
  cases h1 : prefixB (chars "SELECT") (stripChars (upperChars u)) with
  | false => simp [sqlValidate, h1]
  | true =>
    cases h2 : FORBIDDEN_SQL_KEYWORDS.find? (fun kw => infixB kw (stripChars (upperChars u))) with
    | some kw =>
      have hin := List.find?_some h2
      have hmem := List.mem_of_find?_eq_some h2
      simp only [sqlValidate, h1, Bool.not_true, Bool.false_eq_true, if_false, h2]
      constructor
      · intro hfd; exact hfd.elim
      · rintro ⟨_, hall, _⟩
        rw [hall kw hmem] at hin
        exact Bool.noConfusion hin
    | none =>
      have hall : ∀ kw ∈ FORBIDDEN_SQL_KEYWORDS,
          infixB kw (stripChars (upperChars u)) = false := by
        intro kw hkw
        have := List.find?_eq_none.mp h2 kw hkw
        simpa using this
      cases h3 : ALLOWED_TABLES.any (fun t => infixB t (lowerChars u)) with
      | true =>
        simp [sqlValidate, h1, h2, h3]
        exact hall
      | false => simp [sqlValidate, h1, h2, h3]

/-- Claim-side condition: the query starts with `SELECT` after upper-casing
and stripping, exactly as `SQLValidator.validate` tests it. -/
def startsWithSelect (q : Chars) : Bool :=
  prefixB (chars "SELECT") (stripChars (upperChars q))

/-- Claim-side condition: the query names an allow-listed table. -/
def mentionsAllowedTable (q : Chars) : Bool :=
  ALLOWED_TABLES.any (fun t => infixB t (lowerChars q))

/-- Claim-side condition: the query names an allow-listed column. -/
def mentionsAllowedColumn (q : Chars) : Bool :=
  ALLOWED_COLUMNS.any (fun tc => tc.2.any (fun col => infixB col (lowerChars q)))

/-- Claim-side condition: the query already has a `LIMIT` token. -/
def hasLimitClause (q : Chars) : Bool :=
  infixB (chars "LIMIT") (upperChars q)

/-- If the input query fails a claim condition, validation of its normalized
form fails as well. -/
theorem sqlValidate_false_of_cond (q : Chars)
    (hcond : startsWithSelect q = false ∨
      (∃ kw ∈ FORBIDDEN_SQL_KEYWORDS, infixB kw (upperChars q) = true) ∨
      (mentionsAllowedTable q = false ∧ mentionsAllowedColumn q = false)) :
    (sqlValidate (normalizeRutsInQuery q)).1 = false := by
  cases hv : (sqlValidate (normalizeRutsInQuery q)).1 with
  | false => rfl
  | true =>
    obtain ⟨hsel, hkw, htab⟩ := (sqlValidate_true_iff _).mp hv
    rcases hcond with hc | ⟨kw, hkwmem, hkwin⟩ | ⟨htabf, _⟩
    · have hsel' : startsWithSelect q = true := by
        rw [startsWithSelect, ← select_norm_prefix q]; exact hsel
      rw [hsel'] at hc
      exact Bool.noConfusion hc
    · have h1 : infixB kw (upperChars (normalizeRutsInQuery q)) = true := by
        rw [kw_norm_infix_eq kw q hkwmem]; exact hkwin
      have h2 : infixB kw (stripChars (upperChars (normalizeRutsInQuery q))) = true := by
        rw [kw_strip_infix_eq kw _ hkwmem]; exact h1
      rw [hkw kw hkwmem] at h2
      exact Bool.noConfusion h2
    · rw [List.any_eq_true] at htab
      obtain ⟨t, htm, hti⟩ := htab
      have : infixB t (lowerChars q) = true := by
        rw [← table_norm_infix t q htm]; simpa using hti
      have : mentionsAllowedTable q = true := by
        rw [mentionsAllowedTable, List.any_eq_true]
        exact ⟨t, htm, by simpa using this⟩
      rw [this] at htabf
      exact Bool.noConfusion htabf

/-- C2: for every input query, `SQLQueryTool.execute` returns an error result
(with empty `results` and `count = 0`) whenever the query does not start with
`SELECT`, contains a forbidden DDL/DML keyword, or names no allow-listed
table or column; for every accepted query without a `LIMIT` clause the
executed query is the normalized input with ` LIMIT 100` appended; and for
every input the result is either an error shape or a `results`/`count`
shape — the embedded `sqlExecute` is a total function, exactly as the
source's `try/except` makes `execute` exception-free. -/
theorem sql_execute_contract (db : Chars → Except Chars (List PyVal)) (q : Chars) :
    ((startsWithSelect q = false ∨
        (∃ kw ∈ FORBIDDEN_SQL_KEYWORDS, infixB kw (upperChars q) = true) ∨
        (mentionsAllowedTable q = false ∧ mentionsAllowedColumn q = false)) →
      (sqlExecute db q).error.isSome = true ∧ (sqlExecute db q).results = [] ∧
        (sqlExecute db q).count = 0) ∧
    ((sqlValidate (normalizeRutsInQuery q)).1 = true → hasLimitClause q = false →
      (sqlExecute db q).query =
        rstripChar ';' (normalizeRutsInQuery q) ++ chars " LIMIT " ++ intRepr MAX_SQL_ROWS) ∧
    (((sqlExecute db q).error.isSome = true ∧ (sqlExecute db q).results = [] ∧
        (sqlExecute db q).count = 0) ∨
      ((sqlExecute db q).error = Option.none ∧
        (sqlExecute db q).count = (sqlExecute db q).results.length)) := by
  refine ⟨?_, ?_, ?_⟩
  · intro hcond
    have hv := sqlValidate_false_of_cond q hcond
    simp [sqlExecute, hv]
  · intro hv hnl
    have hinf : infixB (chars "LIMIT") (upperChars (normalizeRutsInQuery q)) = false := by
      rw [limit_norm_infix_eq q]; exact hnl
    simp only [sqlExecute, hv, Bool.not_true, Bool.false_eq_true, if_false, hinf,
      Bool.not_false, if_true]
    cases hdb : db (rstripChar ';' (normalizeRutsInQuery q) ++ chars " LIMIT " ++
        intRepr MAX_SQL_ROWS) with
    | ok rows => rfl
    | error e => rfl
  · cases hv : (sqlValidate (normalizeRutsInQuery q)).1 with
    | false => left; simp [sqlExecute, hv]
    | true =>
      by_cases hl : infixB (chars "LIMIT") (upperChars (normalizeRutsInQuery q)) = true
      · cases hdb : db (normalizeRutsInQuery q) with
        | ok rows => right; simp [sqlExecute, hv, hl, hdb]
        | error e => left; simp [sqlExecute, hv, hl, hdb]
      · have hl' : infixB (chars "LIMIT") (upperChars (normalizeRutsInQuery q)) = false :=
          eq_false_of_ne_true hl
        simp only [sqlExecute, hv, Bool.not_true, Bool.false_eq_true, if_false, hl',
          Bool.not_false, if_true]
        cases hdb : db (rstripChar ';' (normalizeRutsInQuery q) ++ chars " LIMIT " ++
            intRepr MAX_SQL_ROWS) with
        | ok rows => right; exact ⟨rfl, rfl⟩
        | error e => left; exact ⟨rfl, rfl, rfl⟩

/-- Database oracle used by the concrete SQL examples: always returns no
rows. -/
def c2db : Chars → Except Chars (List PyVal) := fun _ => Except.ok []

theorem sql_execute_contract_witness :
    (sqlExecute c2db (chars "DELETE FROM afiliados")).error.isSome = true ∧
      (sqlExecute c2db (chars "SELECT rut FROM afiliados")).query =
        rstripChar ';' (normalizeRutsInQuery (chars "SELECT rut FROM afiliados")) ++
          chars " LIMIT " ++ intRepr MAX_SQL_ROWS :=
  ⟨((sql_execute_contract c2db (chars "DELETE FROM afiliados")).1
      (Or.inr (Or.inl ⟨chars "DELETE", by decide, by decide⟩))).1,
    (sql_execute_contract c2db (chars "SELECT rut FROM afiliados")).2.1
      (by decide) (by decide)⟩

/-- C10 counterexample: with an odd arrangement of quotes, the regex rewrite
consumes the closing quote of the first literal, so the second dotted RUT is
left untouched and the executed query differs from the one obtained by
undotting every RUT literal by hand.  The two queries are accepted by
validation, yet `execute` sends different SQL text to the database. -/
theorem rut_normalization_counterexample :
    (sqlExecute c2db
        (chars "SELECT nombre FROM afiliados WHERE obs = '12.345.678-9'12.345.678-9'")).query ≠
      (sqlExecute c2db
        (chars "SELECT nombre FROM afiliados WHERE obs = '12345678-9'12345678-9'")).query := by
  decide

/-- C10 amended: whenever the regex rewrite is idempotent on the query — in
particular for every query whose quotes pair unambiguously — executing the
query is exactly executing its RUT-normalized form: `execute` first rewrites
dotted RUT literals and treats the result identically. -/
theorem rut_normalization_amended (db : Chars → Except Chars (List PyVal)) (q : Chars)
    (h : normalizeRutsInQuery (normalizeRutsInQuery q) = normalizeRutsInQuery q) :
    sqlExecute db q = sqlExecute db (normalizeRutsInQuery q) := by
  simp only [sqlExecute, h]

theorem rut_normalization_amended_witness :
    normalizeRutsInQuery (normalizeRutsInQuery
        (chars "SELECT nombre FROM afiliados WHERE rut = '12.345.678-9'")) =
      normalizeRutsInQuery (chars "SELECT nombre FROM afiliados WHERE rut = '12.345.678-9'") ∧
    sqlExecute c2db (chars "SELECT nombre FROM afiliados WHERE rut = '12.345.678-9'") =
      sqlExecute c2db (normalizeRutsInQuery
        (chars "SELECT nombre FROM afiliados WHERE rut = '12.345.678-9'")) :=
  ⟨by decide, rut_normalization_amended c2db _ (by decide)⟩

/-!
## The agent-RAG indexer (`src/rag/agent_based/indexer.py`), claims C7 and C3

`fitz` (PyMuPDF) is modelled as the list of raw page texts of the PDF; the
LLM summaries, keyword extraction and the metadata scanners — none of which
influence section structure, page numbering or `total_pages` — are oracle
parameters.  Section ids are `str(i)`, so their uniqueness rests on the
injectivity of the decimal rendering of `Nat`, proved first.
-/

/-- Decimal rendering of a natural number, as Python's `str(i)`. -/
def natReprC (n : Nat) : Chars := (Nat.repr n).data

/-- Numeric value of a digit character. -/
def digitVal (c : Char) : Nat := c.toNat - 48

/-- Value of a big-endian digit string. -/
def digitsToNat (l : List Char) : Nat :=
  l.foldl (fun a c => a * 10 + digitVal c) 0

theorem toDigitsCore_append (b : Nat) :
    ∀ (fuel n : Nat) (ds : List Char),
      Nat.toDigitsCore b fuel n ds = Nat.toDigitsCore b fuel n [] ++ ds := by
  intro fuel
  induction fuel with
  | zero => intro n ds; rfl
  | succ fuel ih =>
    intro n ds
    simp only [Nat.toDigitsCore]
    by_cases h : n / b = 0
    · simp [h]
    · simp only [h, if_false]
      rw [ih (n / b) (Nat.digitChar (n % b) :: ds), ih (n / b) [Nat.digitChar (n % b)]]
      simp

theorem digitsToNat_append_digit (l : List Char) (c : Char) :
    digitsToNat (l ++ [c]) = digitsToNat l * 10 + digitVal c := by
  simp [digitsToNat, List.foldl_append]

theorem toDigitsCore_val :
    ∀ fuel n : Nat, n < fuel →
      digitsToNat (Nat.toDigitsCore 10 fuel n []) = n := by
  intro fuel
  induction fuel with
  | zero => intro n h; exact absurd h (Nat.not_lt_zero n)
  | succ fuel ih =>
    intro n h
    simp only [Nat.toDigitsCore]
    by_cases h0 : n / 10 = 0
    · have hn : n < 10 := by omega
      have hmod : n % 10 = n := Nat.mod_eq_of_lt hn
      simp only [h0, if_true, hmod]
      interval_cases n <;> decide
    · simp only [h0, if_false]
      rw [toDigitsCore_append, digitsToNat_append_digit]
      have h10 : n / 10 < fuel := by omega
      rw [ih (n / 10) h10]
      have hm : n % 10 < 10 := Nat.mod_lt _ (by norm_num)
      have hroundtrip : digitVal (Nat.digitChar (n % 10)) = n % 10 := by
        generalize hg : n % 10 = m at hm
        interval_cases m <;> decide
      rw [hroundtrip]
      omega

/-- `str` on naturals is injective. -/
theorem natReprC_inj : Function.Injective natReprC := by
  intro m n h
  have hm : Nat.toDigits 10 m = Nat.toDigits 10 n := h
  have h1 := toDigitsCore_val (m + 1) m (Nat.lt_succ_self m)
  have h2 := toDigitsCore_val (n + 1) n (Nat.lt_succ_self n)
  calc m = digitsToNat (Nat.toDigits 10 m) := h1.symm
    _ = digitsToNat (Nat.toDigits 10 n) := by rw [hm]
    _ = n := h2

/-- Mirrors `_read_pdf_pages`: walks the physical pages, keeping only pages
with non-blank text, numbered by physical position + 1. -/
def readPdfPagesAux (i : Nat) : List Chars → List (Nat × Chars)
  | [] => []
  | t :: ts =>
    if t.isEmpty || (stripChars t).isEmpty then readPdfPagesAux (i + 1) ts
    else (i + 1, stripChars t) :: readPdfPagesAux (i + 1) ts

/-- `_read_pdf_pages` over the raw page texts delivered by `fitz`. -/
def readPdfPages (texts : List Chars) : List (Nat × Chars) := readPdfPagesAux 0 texts

/-- One section dictionary of `index_document`.  `batch[0]`/`batch[-1]`
raise on an empty batch in Python; `_create_batches` never produces one
(`createBatchesF_spec`), so the defaults below are unreachable. -/
def mkSection (i : Nat) (batch : List (Nat × Chars)) (summary : Chars)
    (keywords : List PyVal) : PyVal :=
  .dict [
    (chars "section_id", .str (natReprC i)),
    (chars "title", .str (chars "Sección " ++ natReprC i)),
    (chars "pages", .list (batch.map (fun p => .num (p.1 : Rat)))),
    (chars "page_range",
      .str (natReprC ((batch.headD (0, [])).1) ++ chars "-" ++
        natReprC ((batch.getLastD (0, [])).1))),
    (chars "summary", .str summary),
    (chars "keywords", .list keywords)]

/-- The `for i, batch in enumerate(batches, 1)` loop of `index_document`;
`sums i` and `kws i` are the LLM summary and extracted keywords of batch
`i`, whose text the claims never inspect. -/
def buildSections (sums : Nat → Chars) (kws : Nat → List PyVal) :
    Nat → List (List (Nat × Chars)) → List PyVal
  | _, [] => []
  | i, batch :: rest =>
    mkSection i batch (sums i) (kws i) :: buildSections sums kws (i + 1) rest

/-- Mirrors `index_document` followed by `_create_index`, for the fields the
claims read: `total_pages` is `len(pages)` (set unconditionally by
`_extract_metadata_from_content`), `sections` is the enumerated batch list.
`docId`, `metaTC` (title/category/source_file) and `metaObj` stand for the
regex-scanned metadata, which no claim touches. -/
def indexDocument (texts : List Chars) (batchSize : Nat) (sums : Nat → Chars)
    (kws : Nat → List PyVal) (globalSummary docId : Chars)
    (metaTC : List (Chars × PyVal)) (metaObj : PyVal) : Except Chars PyVal :=
  let pages := readPdfPages texts
  if pages.isEmpty then
    .error (chars "ValueError: No se pudo extraer texto del PDF")
  else if batchSize = 0 then
    .error (chars "ValueError: range() arg 3 must not be zero")
  else
    let batches := createBatches pages batchSize
    let sections := buildSections sums kws 1 batches
    .ok (.dict ([(chars "document_id", .str docId)] ++ metaTC ++
      [(chars "total_pages", .num (pages.length : Rat)),
       (chars "summary", .str globalSummary),
       (chars "metadata", metaObj),
       (chars "sections", .list sections)]))

/-- Reads `index["total_pages"]` when it is a number. -/
def indexTotalPages (idx : PyVal) : Option Rat :=
  match idx with
  | .dict kvs =>
    match dictLookup (chars "total_pages") kvs with
    | some (.num r) => some r
    | _ => Option.none
  | _ => Option.none

/-- Reads `index["sections"]` when it is a list. -/
def indexSections (idx : PyVal) : List PyVal :=
  match idx with
  | .dict kvs =>
    match dictLookup (chars "sections") kvs with
    | some (.list ss) => ss
    | _ => []
  | _ => []

/-- Numeric entries of `section["pages"]`. -/
def sectionPagesR (s : PyVal) : List Rat :=
  match s with
  | .dict kvs =>
    match dictLookup (chars "pages") kvs with
    | some (.list ps) =>
      ps.filterMap (fun p => match p with | .num r => some r | _ => Option.none)
    | _ => []
  | _ => []

/-- All page numbers of an index, in section order. -/
def indexFlatPages (idx : PyVal) : List Rat :=
  (indexSections idx).flatMap sectionPagesR

/-- `section["section_id"]` when it is a string. -/
def sectionId (s : PyVal) : Chars :=
  match s with
  | .dict kvs =>
    match dictLookup (chars "section_id") kvs with
    | some (.str t) => t
    | _ => []
  | _ => []

/-- The section ids of an index, in order. -/
def indexSectionIds (idx : PyVal) : List Chars := (indexSections idx).map sectionId

/-- When every page is non-blank, `_read_pdf_pages` numbers pages
consecutively from the starting offset. -/
theorem readPdfPagesAux_fst :
    ∀ ts : List Chars, (∀ t ∈ ts, (stripChars t).isEmpty = false) →
      ∀ i, (readPdfPagesAux i ts).map Prod.fst = List.range' (i + 1) ts.length := by
  intro ts
  induction ts with
  | nil => intro _ i; rfl
  | cons t ts ih =>
    intro h i
    have ht := h t (List.mem_cons_self _ _)
    have hte : t.isEmpty = false := by
      cases t with
      | nil => exact Bool.noConfusion ht
      | cons c cs => rfl
    have htail := fun t' ht' => h t' (List.mem_cons_of_mem _ ht')
    rw [readPdfPagesAux]
    have hcond : (t.isEmpty || (stripChars t).isEmpty) = false := by simp [hte, ht]
    simp only [hcond, Bool.false_eq_true, if_false]
    rw [List.map_cons, List.length_cons, List.range'_succ, ih htail (i + 1)]

/-- A `.num`-tagged map round-trips through the numeric filter. -/
theorem filterMap_num_map (l : List (Nat × Chars)) :
    (l.map (fun p => PyVal.num (p.1 : Rat))).filterMap
      (fun p => match p with | .num r => some r | _ => Option.none) =
      l.map (fun p => ((p.1 : Nat) : Rat)) := by
  induction l with
  | nil => rfl
  | cons p ps ih => simp [List.filterMap_cons, ih]

/-- The page numbers listed by the generated sections are exactly the page
numbers of the batched pages, in order. -/
theorem buildSections_pages (sums : Nat → Chars) (kws : Nat → List PyVal) :
    ∀ (bs : List (List (Nat × Chars))) (i : Nat),
      (buildSections sums kws i bs).flatMap sectionPagesR =
        bs.flatten.map (fun p => ((p.1 : Nat) : Rat)) := by
  intro bs
  induction bs with
  | nil => intro i; rfl
  | cons batch rest ih =>
    intro i
    rw [buildSections, List.flatMap_cons, ih (i + 1), List.flatten_cons, List.map_append]
    congr 1
    rw [show sectionPagesR (mkSection i batch (sums i) (kws i)) =
        (batch.map (fun p => PyVal.num (p.1 : Rat))).filterMap
          (fun p => match p with | .num r => some r | _ => Option.none) from rfl]
    exact filterMap_num_map batch

/-- The section ids are the decimal renderings of the batch positions. -/
theorem buildSections_ids (sums : Nat → Chars) (kws : Nat → List PyVal) :
    ∀ (bs : List (List (Nat × Chars))) (i : Nat),
      (buildSections sums kws i bs).map sectionId =
        (List.range' i bs.length).map natReprC := by
  intro bs
  induction bs with
  | nil => intro i; rfl
  | cons batch rest ih =>
    intro i
    rw [buildSections, List.map_cons, List.length_cons, List.range'_succ, List.map_cons,
      ih (i + 1)]
    rfl

/-- Keys absent from a prefix of a dictionary do not affect lookup. -/
theorem dictLookup_append (k : Chars) (l1 l2 : List (Chars × PyVal))
    (h : ∀ p ∈ l1, p.1 ≠ k) : dictLookup k (l1 ++ l2) = dictLookup k l2 := by
  induction l1 with
  | nil => rfl
  | cons p ps ih =>
    obtain ⟨k', v⟩ := p
    rw [List.cons_append, dictLookup]
    rw [if_neg (h (k', v) (List.mem_cons_self _ _))]
    exact ih (fun p hp => h p (List.mem_cons_of_mem _ hp))

theorem dictLookup_cons_ne (k k' : Chars) (v : PyVal) (rest : List (Chars × PyVal))
    (h : k' ≠ k) : dictLookup k ((k', v) :: rest) = dictLookup k rest := by
  rw [dictLookup, if_neg h]

/-- Lookup of `total_pages` in the index dictionary built by
`indexDocument`. -/
theorem dictLookup_D_tp (docId : Chars) (metaTC : List (Chars × PyVal))
    (hmeta : ∀ p ∈ metaTC, p.1 ≠ chars "total_pages") (tpv suv mev sev : PyVal) :
    dictLookup (chars "total_pages")
      ([(chars "document_id", PyVal.str docId)] ++ metaTC ++
        [(chars "total_pages", tpv), (chars "summary", suv),
         (chars "metadata", mev), (chars "sections", sev)]) = some tpv := by
  simp only [List.cons_append, List.nil_append]
  rw [dictLookup_cons_ne _ _ _ _ (by decide)]
  rw [dictLookup_append _ metaTC _ hmeta]
  rfl

/-- Lookup of `sections` in the index dictionary built by `indexDocument`. -/
theorem dictLookup_D_se (docId : Chars) (metaTC : List (Chars × PyVal))
    (hmeta : ∀ p ∈ metaTC, p.1 ≠ chars "sections") (tpv suv mev sev : PyVal) :
    dictLookup (chars "sections")
      ([(chars "document_id", PyVal.str docId)] ++ metaTC ++
        [(chars "total_pages", tpv), (chars "summary", suv),
         (chars "metadata", mev), (chars "sections", sev)]) = some sev := by
  simp only [List.cons_append, List.nil_append]
  rw [dictLookup_cons_ne _ _ _ _ (by decide)]
  rw [dictLookup_append _ metaTC _ hmeta]
  rfl

/-- `indexTotalPages` of the dictionary built by `indexDocument`. -/
theorem indexTotalPages_eq (docId : Chars) (metaTC : List (Chars × PyVal))
    (hmeta : ∀ p ∈ metaTC, p.1 ≠ chars "total_pages") (r : Rat) (suv mev sev : PyVal) :
    indexTotalPages (PyVal.dict ([(chars "document_id", PyVal.str docId)] ++ metaTC ++
      [(chars "total_pages", PyVal.num r), (chars "summary", suv),
       (chars "metadata", mev), (chars "sections", sev)])) = some r := by
  simp only [indexTotalPages]
  rw [dictLookup_D_tp docId metaTC hmeta]

/-- `indexSections` of the dictionary built by `indexDocument`. -/
theorem indexSections_eq (docId : Chars) (metaTC : List (Chars × PyVal))
    (hmeta : ∀ p ∈ metaTC, p.1 ≠ chars "sections") (tpv suv mev : PyVal)
    (ss : List PyVal) :
    indexSections (PyVal.dict ([(chars "document_id", PyVal.str docId)] ++ metaTC ++
      [(chars "total_pages", tpv), (chars "summary", suv),
       (chars "metadata", mev), (chars "sections", PyVal.list ss)])) = ss := by
  simp only [indexSections]
  rw [dictLookup_D_se docId metaTC hmeta]

/-- C7 amended: when every physical page of the source document carries
non-blank text, the generated index covers pages `1..total_pages` exactly —
the concatenation of the sections' page lists, in section order, is the
contiguous range `1..total_pages` (hence monotonically increasing, without
gaps or overlaps) — and the section ids are pairwise distinct. -/
theorem index_coverage_amended (texts : List Chars) (batchSize : Nat)
    (sums : Nat → Chars) (kws : Nat → List PyVal) (globalSummary docId : Chars)
    (metaTC : List (Chars × PyVal)) (metaObj : PyVal)
    (hbs : 1 ≤ batchSize) (hne : texts ≠ [])
    (hblank : ∀ t ∈ texts, (stripChars t).isEmpty = false)
    (hk1 : ∀ p ∈ metaTC, p.1 ≠ chars "total_pages")
    (hk2 : ∀ p ∈ metaTC, p.1 ≠ chars "sections") :
    ∃ idx,
      indexDocument texts batchSize sums kws globalSummary docId metaTC metaObj =
        .ok idx ∧
      indexTotalPages idx = some ((texts.length : Nat) : Rat) ∧
      indexFlatPages idx = (List.range' 1 texts.length).map (fun n => ((n : Nat) : Rat)) ∧
      (indexSectionIds idx).Nodup := by
  have hfst : (readPdfPages texts).map Prod.fst = List.range' 1 texts.length :=
    readPdfPagesAux_fst texts hblank 0
  have hlen : (readPdfPages texts).length = texts.length := by
    have hc := congrArg List.length hfst
    simpa using hc
  have hpne' : readPdfPages texts ≠ [] := by
    intro hc
    rw [hc] at hlen
    exact hne (List.length_eq_zero.mp hlen.symm)
  have hpne : (readPdfPages texts).isEmpty = false := by
    cases hie : (readPdfPages texts).isEmpty with
    | false => rfl
    | true => exact absurd (List.isEmpty_iff.mp hie) hpne'
  have hflat : (createBatches (readPdfPages texts) batchSize).flatten =
      readPdfPages texts := by
    rw [createBatches, if_neg (by omega : ¬ batchSize = 0)]
    exact (createBatchesF_spec (readPdfPages texts).length (readPdfPages texts) batchSize
      le_rfl hbs).1
  simp only [indexDocument, hpne, Bool.false_eq_true, if_false]
  rw [if_neg (by omega : ¬ batchSize = 0)]
  refine ⟨_, rfl, ?_, ?_, ?_⟩
  · rw [hlen]
    exact indexTotalPages_eq docId metaTC hk1 _ _ _ _
  · refine Eq.trans (congrArg (fun ss => ss.flatMap sectionPagesR)
      (indexSections_eq docId metaTC hk2 _ _ _ _)) ?_
    rw [buildSections_pages, hflat]
    rw [show (fun p : Nat × Chars => ((p.1 : Nat) : Rat)) =
        (fun n : Nat => (n : Rat)) ∘ Prod.fst from rfl]
    rw [← List.map_map, hfst]
  · have hids : indexSectionIds (PyVal.dict ([(chars "document_id", PyVal.str docId)] ++
        metaTC ++ [(chars "total_pages",
            PyVal.num ((readPdfPages texts).length : Rat)),
          (chars "summary", PyVal.str globalSummary),
          (chars "metadata", metaObj),
          (chars "sections", PyVal.list (buildSections sums kws 1
            (createBatches (readPdfPages texts) batchSize)))])) =
        (List.range' 1 (createBatches (readPdfPages texts) batchSize).length).map
          natReprC := by
      show ((indexSections _).map sectionId) = _
      rw [indexSections_eq docId metaTC hk2]
      rw [buildSections_ids]
    rw [hids]
    exact List.Nodup.map natReprC_inj (List.nodup_range' _ _)

/-- Page texts of a three-page PDF whose middle page is blank. -/
def c7texts : List Chars :=
  [chars "Página uno con contenido", chars "   ", chars "Página tres con contenido"]

/-- C7 counterexample: `_read_pdf_pages` drops blank pages but keeps physical
page numbers, so a blank middle page yields an index whose sections list
pages `[1, 3]` while `total_pages = 2`: the union of the section page ranges
is neither gap-free nor equal to `1..total_pages`. -/
theorem index_coverage_counterexample :
    (match indexDocument c7texts 5 (fun _ => chars "resumen") (fun _ => [])
        (chars "global") (chars "PROC-TEST-001") [] PyVal.none with
     | .ok idx => some (indexFlatPages idx, indexTotalPages idx)
     | .error _ => Option.none) = some ([(1 : Rat), 3], some (2 : Rat)) ∧
    ¬ (([1, 3] : List Rat) =
        (List.range' 1 2).map (fun n => ((n : Nat) : Rat))) := by
  constructor
  · decide
  · decide

theorem index_coverage_amended_witness :
    ∃ idx,
      indexDocument [chars "uno", chars "dos", chars "tres"] 2 (fun _ => chars "r")
          (fun _ => []) (chars "g") (chars "PROC-X") [] PyVal.none = .ok idx ∧
      indexTotalPages idx =
        some (([chars "uno", chars "dos", chars "tres"].length : Nat) : Rat) ∧
      indexFlatPages idx =
        (List.range' 1 [chars "uno", chars "dos", chars "tres"].length).map
          (fun n => ((n : Nat) : Rat)) ∧
      (indexSectionIds idx).Nodup :=
  index_coverage_amended [chars "uno", chars "dos", chars "tres"] 2 (fun _ => chars "r")
    (fun _ => []) (chars "g") (chars "PROC-X") [] PyVal.none (by decide) (by decide)
    (by decide) (by simp) (by simp)

/-- Suffix test on character lists. -/
def suffixB (pat l : Chars) : Bool := prefixB pat.reverse l.reverse

/-- Mirrors `_save_index`'s file naming: `f"{index['document_id']}.json"`.
Directory creation and JSON serialization are filesystem effects the claim's
round-trip sees only through the (filename, parsed content) pairs below. -/
def saveIndexFilename (index : PyVal) : Except Chars Chars := do
  let d ← pySubscrE index (chars "document_id")
  pure (pyStr d ++ chars ".json")

/-- `Path.glob("index-*.json")` membership: the name starts with `index-`,
ends with `.json`, and is long enough for the two parts not to overlap. -/
def globIndexMatch (name : Chars) : Bool :=
  prefixB (chars "index-") name && suffixB (chars ".json") name &&
    decide (11 ≤ name.length)

/-- `Path.stem`: the file name up to its last dot. -/
def fileStem (name : Chars) : Chars :=
  match rfindCharIdx '.' name with
  | some i => name.take i
  | Option.none => name

/-- Mirrors `_load_all_indices` over a directory listing: every file matching
`index-*.json` whose JSON parses (`Option.none` models a raised load error,
which the source catches and skips) is stored under
`index_data.get("document_id", file.stem)`.  The repository's indices carry
string `document_id`s; other hashable values would be dictionary keys too,
and are rendered through `pyStr` here. -/
def loadAllIndices (files : List (Chars × Option PyVal)) : List (Chars × PyVal) :=
  files.foldl
    (fun acc nf =>
      if globIndexMatch nf.1 then
        match nf.2 with
        | some v =>
          let docId :=
            match v with
            | .dict kvs =>
              match dictLookup (chars "document_id") kvs with
              | some d => pyStr d
              | Option.none => fileStem nf.1
            | _ => fileStem nf.1
          dictAssign docId v acc
        | Option.none => acc
      else acc) []

/-- The canonical index written for the repository's first procedure. -/
def c3index : PyVal :=
  .dict [(chars "document_id", .str (chars "PROC-JUB-001")),
         (chars "title", .str (chars "Pensión de Vejez"))]

/-- C3: the round-trip fails.  `_save_index` names the file
`{document_id}.json` while `_load_all_indices` only reads files matching
`index-*.json`, so an index written by the indexer is never loaded back; the
same directory would load it had the file carried the `index-` prefix. -/
theorem index_save_load_mismatch :
    saveIndexFilename c3index = .ok (chars "PROC-JUB-001.json") ∧
    globIndexMatch (chars "PROC-JUB-001.json") = false ∧
    loadAllIndices [(chars "PROC-JUB-001.json", some c3index)] = [] ∧
    loadAllIndices [(chars "index-PROC-JUB-001.json", some c3index)] =
      [(chars "PROC-JUB-001", c3index)] := by
  refine ⟨rfl, by decide, rfl, rfl⟩

/-!
## Indexed retrieval (`src/rag/agent_based/retrieval.py`), claim C4

`json.loads` is the oracle `loads : Chars → Option PyVal` (`Option.none` is a
`JSONDecodeError`); the phase-1 LLM call is `resp : Except Chars Chars`
(its content, or a raised exception); phases 2 and 3 and the final response
generation enter as oracle functions, so a theorem quantifying over them
states that they are never consulted.
-/

/-- Markdown-fence cleanup of `_filter_relevant_documents` (the
`startswith`-based variant).  The `[1]` accesses are guarded by
`startswith`, so the separator occurs and the part exists. -/
def fenceCleanP1 (t : Chars) : Chars :=
  if prefixB (chars "\x60\x60\x60json") t then
    stripChars ((splitOnSep (chars "\x60\x60\x60")
      ((splitOnSep (chars "\x60\x60\x60json") t).getD 1 [])).headD [])
  else if prefixB (chars "\x60\x60\x60") t then
    stripChars ((splitOnSep (chars "\x60\x60\x60")
      ((splitOnSep (chars "\x60\x60\x60") t).getD 1 [])).headD [])
  else t

/-- The prompt of phase 1 evaluates, for each index,
`index_data.get(...)` (an `AttributeError` on non-dicts) and
`len(index_data.get('sections', []))` (a `TypeError` on unsized values);
both happen before the `try` block, so they propagate. -/
def promptCheckOne (v : PyVal) : Except Chars Unit :=
  match v with
  | .dict kvs =>
    match (dictLookup (chars "sections") kvs).getD (.list []) with
    | .list _ => .ok ()
    | .str _ => .ok ()
    | .dict _ => .ok ()
    | _ => .error (chars "TypeError: object has no len()")
  | _ => .error (chars "AttributeError: object has no attribute get")

def promptCheck : List (Chars × PyVal) → Except Chars Unit
  | [] => .ok ()
  | (_, v) :: rest =>
    match promptCheckOne v with
    | .error e => .error e
    | .ok () => promptCheck rest

/-- The membership loop of `_filter_relevant_documents`: `Option.none`
models a raised `TypeError` (unhashable `doc_id`), which the enclosing
`except` turns into `[]`.  Non-string hashable ids can never equal the
string keys of `indices`. -/
def buildRelevant (reasoning : PyVal) (indices : List (Chars × PyVal)) :
    List PyVal → Option (List PyVal)
  | [] => some []
  | d :: rest =>
    match d with
    | .list _ => Option.none
    | .dict _ => Option.none
    | _ =>
      match buildRelevant reasoning indices rest with
      | Option.none => Option.none
      | some tail =>
        match d with
        | .str s =>
          match dictLookup s indices with
          | some idx =>
            some (.dict [(chars "document_id", .str s), (chars "index", idx),
              (chars "reasoning", reasoning)] :: tail)
          | Option.none => some tail
        | _ => some tail

/-- Mirrors `_filter_relevant_documents`: `[]` for empty indices; prompt
construction failures propagate; every exception of the `try` block —
a raised `generate`, a `JSONDecodeError`, a non-dict parse result or an
unhashable id — yields `[]`. -/
def filterRelevantDocuments (loads : Chars → Option PyVal)
    (resp : Except Chars Chars) (indices : List (Chars × PyVal)) :
    Except Chars (List PyVal) :=
  if indices.isEmpty then .ok []
  else
    match promptCheck indices with
    | .error e => .error e
    | .ok () =>
      match resp with
      | .error _ => .ok []
      | .ok content =>
        match loads (fenceCleanP1 (stripChars content)) with
        | Option.none => .ok []
        | some result =>
          match result with
          | .dict rkvs =>
            let reasoning := (dictLookup (chars "reasoning") rkvs).getD (.str [])
            match (dictLookup (chars "relevant_documents") rkvs).getD (.list []) with
            | .list ids =>
              match buildRelevant reasoning indices ids with
              | some docs => .ok docs
              | Option.none => .ok []
            | .str s =>
              -- a string id list iterates its characters
              match buildRelevant reasoning indices (s.map (fun c => .str [c])) with
              | some docs => .ok docs
              | Option.none => .ok []
            | .dict ks =>
              -- iterating a dict yields its keys
              match buildRelevant reasoning indices (ks.map (fun p => .str p.1)) with
              | some docs => .ok docs
              | Option.none => .ok []
            | _ => .ok []
          | _ => .ok []

/-- The constant no-documents result of `retrieve_with_index` (built before
`elapsed_ms` is attached, exactly as in the source). -/
def noDocsResult : PyVal :=
  .dict [(chars "chunks", .list []),
         (chars "method", .str (chars "agent_rag_indexed")),
         (chars "message",
          .str (chars "No se encontraron documentos relevantes para tu consulta"))]

/-- Phases 2 and 3 of `retrieve_with_index`: for each relevant document,
filter sections and, when any are returned, load their content. -/
def phase23Loop (phase2 : PyVal → Except Chars (List Chars))
    (phase3 : PyVal → List Chars → Except Chars (List PyVal)) :
    List PyVal → Except Chars (List PyVal)
  | [] => .ok []
  | doc :: rest =>
    match pySubscrE doc (chars "index") with
    | .error e => .error e
    | .ok docIndex =>
      match phase2 docIndex with
      | .error e => .error e
      | .ok sectionIds =>
        match (if sectionIds.isEmpty then .ok [] else phase3 docIndex sectionIds :
            Except Chars (List PyVal)) with
        | .error e => .error e
        | .ok here =>
          match phase23Loop phase2 phase3 rest with
          | .error e => .error e
          | .ok tail => .ok (here ++ tail)

/-- Mirrors `retrieve_with_index`: load indices (falling back to the judge
`retrieve` when none exist), filter documents, short-circuit on an empty
relevant list, otherwise run phases 2–3 and attach `elapsed_ms`. -/
def retrieveWithIndex (files : List (Chars × Option PyVal))
    (loads : Chars → Option PyVal) (resp : Except Chars Chars)
    (phase2 : PyVal → Except Chars (List Chars))
    (phase3 : PyVal → List Chars → Except Chars (List PyVal))
    (genFinal : List PyVal → Except Chars PyVal)
    (judgeFallback : Except Chars PyVal) (elapsed : Rat) : Except Chars PyVal :=
  let indices := loadAllIndices files
  if indices.isEmpty then judgeFallback
  else
    match filterRelevantDocuments loads resp indices with
    | .error e => .error e
    | .ok docs =>
      if docs.isEmpty then .ok noDocsResult
      else
        match phase23Loop phase2 phase3 docs with
        | .error e => .error e
        | .ok allSections =>
          match genFinal allSections with
          | .error e => .error e
          | .ok result =>
            match pyAssignE result (chars "elapsed_ms") (.num elapsed) with
            | .error e => .error e
            | .ok result' => .ok result'

/-- C4: with indices present, whenever phase 1 returns an empty relevant
list — in particular whenever its LLM response fails to parse as JSON —
`retrieve_with_index` returns the constant no-documents result, whose
`chunks` is the empty list, for **every** phase-2, phase-3 and final
generation oracle: the later phases are never executed. -/
theorem retrieve_with_index_no_docs
    (files : List (Chars × Option PyVal)) (loads : Chars → Option PyVal)
    (resp : Except Chars Chars)
    (phase2 : PyVal → Except Chars (List Chars))
    (phase3 : PyVal → List Chars → Except Chars (List PyVal))
    (genFinal : List PyVal → Except Chars PyVal)
    (judgeFallback : Except Chars PyVal) (elapsed : Rat)
    (hind : (loadAllIndices files).isEmpty = false) :
    (filterRelevantDocuments loads resp (loadAllIndices files) = .ok [] →
      retrieveWithIndex files loads resp phase2 phase3 genFinal judgeFallback
        elapsed = .ok noDocsResult) ∧
    (∀ content, resp = .ok content →
      promptCheck (loadAllIndices files) = .ok () →
      loads (fenceCleanP1 (stripChars content)) = Option.none →
      filterRelevantDocuments loads resp (loadAllIndices files) = .ok []) ∧
    pySubscrE noDocsResult (chars "chunks") = .ok (.list []) := by
  refine ⟨?_, ?_, rfl⟩
  · intro h1
    simp only [retrieveWithIndex, hind, Bool.false_eq_true, if_false, h1]
    rfl
  · intro content hc hp hl
    subst hc
    simp only [filterRelevantDocuments, hind, Bool.false_eq_true, if_false, hp, hl]

/-- A directory with one well-formed index file. -/
def c4files : List (Chars × Option PyVal) :=
  [(chars "index-PROC-JUB-001.json",
    some (.dict [(chars "document_id", .str (chars "PROC-JUB-001")),
                 (chars "sections", .list [])]))]

/-- A `json.loads` oracle that rejects everything. -/
def c4loads : Chars → Option PyVal := fun _ => Option.none

theorem retrieve_with_index_no_docs_witness :
    retrieveWithIndex c4files c4loads (.ok (chars "sin json")) (fun _ => .error [])
        (fun _ _ => .error []) (fun _ => .error []) (.error []) 0 = .ok noDocsResult ∧
    filterRelevantDocuments c4loads (.ok (chars "sin json"))
      (loadAllIndices c4files) = .ok [] :=
  ⟨(retrieve_with_index_no_docs c4files c4loads (.ok (chars "sin json")) (fun _ => .error [])
      (fun _ _ => .error []) (fun _ => .error []) (.error []) 0 (by rfl)).1 (by rfl),
   (retrieve_with_index_no_docs c4files c4loads (.ok (chars "sin json")) (fun _ => .error [])
      (fun _ _ => .error []) (fun _ => .error []) (.error []) 0 (by rfl)).2.1
     (chars "sin json") rfl (by rfl) (by rfl)⟩

/-!
## LLM-as-judge retrieval (`chunk_evaluator.py`, `retrieval.py`), claim C5

The two `re.sub` fence strippers of `_parse_json_response` only run when the
response contains a markdown fence; they enter as the oracle `fenceSub`
(the claim, and the counterexample below, concern fence-free responses).
`loads` is the `json.loads` oracle as before; the per-document LLM call is
`resps i`.
-/

/-- The parse-failure fallback of `_parse_json_response`. -/
def parseFallback : PyVal :=
  .dict [(chars "relevance_score", .num 0),
         (chars "reasoning", .str (chars "No se pudo parsear la respuesta del LLM")),
         (chars "relevant_sections", .list [])]

/-- Mirrors `_parse_json_response`: strip, fence cleanup when a fence is
present, direct parse, then the `find('\x7b')`/`rfind('\x7d')` slice
attempt, then the score-0 fallback. -/
def parseJsonResponse (loads : Chars → Option PyVal) (fenceSub : Chars → Chars)
    (response : Chars) : PyVal :=
  let cleaned0 := stripChars response
  let cleaned :=
    if infixB (chars "\x60\x60\x60") cleaned0 then stripChars (fenceSub cleaned0)
    else cleaned0
  match loads cleaned with
  | some v => v
  | Option.none =>
    match findCharIdx '\x7b' cleaned, rfindCharIdx '\x7d' cleaned with
    | some s, some e =>
      if s < e then
        match loads ((cleaned.drop s).take (e + 1 - s)) with
        | some v => v
        | Option.none => parseFallback
      else parseFallback
    | _, _ => parseFallback

/-- The error fallback of `evaluate_relevance`. -/
def evalFallback (docId : PyVal) (msg : Chars) : PyVal :=
  .dict [(chars "document_id", docId), (chars "relevance_score", .num 0),
         (chars "reasoning", .str msg), (chars "relevant_sections", .list [])]

/-- Mirrors `evaluate_relevance`: the `document["id"/"content"/"metadata"]`
subscripts and the prompt's `metadata.get` happen before the `try` block and
propagate; inside it, a raised `generate` or a failed `document_id`
assignment (a non-dict parse) falls back to the score-0 dictionary. -/
def evaluateRelevance (loads : Chars → Option PyVal) (fenceSub : Chars → Chars)
    (resp : Except Chars Chars) (document : PyVal) : Except Chars PyVal :=
  match pySubscrE document (chars "id") with
  | .error e => .error e
  | .ok docId =>
    match pySubscrE document (chars "content") with
    | .error e => .error e
    | .ok _ =>
      match pySubscrE document (chars "metadata") with
      | .error e => .error e
      | .ok metadata =>
        match (match metadata with
               | .dict _ => (.ok () : Except Chars Unit)
               | _ => .error (chars "AttributeError: get")) with
        | .error e => .error e
        | .ok () =>
          match resp with
          | .error e => .ok (evalFallback docId (chars "Error al evaluar: " ++ e))
          | .ok content =>
            match pyAssignE (parseJsonResponse loads fenceSub content)
                (chars "document_id") docId with
            | .ok ev => .ok ev
            | .error e => .ok (evalFallback docId (chars "Error al evaluar: " ++ e))

/-- `asyncio.gather` over `evaluate_relevance` tasks: results in document
order, the first raised exception propagating. -/
def evalAll (loads : Chars → Option PyVal) (fenceSub : Chars → Chars)
    (resps : Nat → Except Chars Chars) : Nat → List PyVal → Except Chars (List PyVal)
  | _, [] => .ok []
  | i, doc :: rest =>
    match evaluateRelevance loads fenceSub (resps i) doc with
    | .error e => .error e
    | .ok ev =>
      match evalAll loads fenceSub resps (i + 1) rest with
      | .error e => .error e
      | .ok tail => .ok (ev :: tail)

/-- `int(q)`: truncation toward zero. -/
def ratTrunc (q : Rat) : Int := if q < 0 then -((-q).floor) else q.floor

/-- Mirrors `_format_citation`. -/
def formatCitation (metadata : PyVal) (score : Rat) : Except Chars Chars :=
  match metadata with
  | .dict kvs =>
    .ok (chars "[Doc: " ++ pyStr ((dictLookup (chars "procedure_code") kvs).getD
        (.str (chars "UNKNOWN"))) ++
      chars " (" ++ pyStr ((dictLookup (chars "category") kvs).getD
        (.str (chars "general"))) ++
      chars "), relevancia LLM: " ++ intRepr (ratTrunc (score * 100)) ++ chars "%]")
  | _ => .error (chars "AttributeError: get")

/-- The `scored_docs` construction of `retrieve`: the direct subscripts
`evaluation["relevance_score"/"reasoning"/"relevant_sections"]` raise
`KeyError` when the parsed evaluation lacks a key.  The sort key must be a
number; a non-numeric score is reported as the `TypeError` Python would
raise on comparison (at sort rather than append time — the claims never
reach that case). -/
def buildScored : List (PyVal × PyVal) → Except Chars (List (Rat × PyVal))
  | [] => .ok []
  | (doc, ev) :: rest =>
    match pySubscrE doc (chars "content") with
    | .error e => .error e
    | .ok content =>
      match pySubscrE doc (chars "metadata") with
      | .error e => .error e
      | .ok metadata =>
        match pySubscrE ev (chars "relevance_score") with
        | .error e => .error e
        | .ok scoreVal =>
          match pySubscrE ev (chars "reasoning") with
          | .error e => .error e
          | .ok reasoning =>
            match pySubscrE ev (chars "relevant_sections") with
            | .error e => .error e
            | .ok sectionsVal =>
              match pyAsNum scoreVal with
              | Option.none => .error (chars "TypeError: sort comparison")
              | some r =>
                match buildScored rest with
                | .error e => .error e
                | .ok tail =>
                  .ok ((r, .dict [(chars "content", content),
                    (chars "metadata", metadata), (chars "score", scoreVal),
                    (chars "reasoning", reasoning),
                    (chars "relevant_sections", sectionsVal)]) :: tail)

/-- Stable descending insertion: a new element goes after every element of
equal or higher score, as `list.sort(reverse=True)` keeps ties stable. -/
def insertDesc (x : Rat × PyVal) : List (Rat × PyVal) → List (Rat × PyVal)
  | [] => [x]
  | y :: ys => if y.1 < x.1 then x :: y :: ys else y :: insertDesc x ys

def sortDesc (l : List (Rat × PyVal)) : List (Rat × PyVal) :=
  l.foldl (fun acc x => insertDesc x acc) []

/-- The `formatted_chunks` loop of `retrieve`. -/
def formatChunks : List (Rat × PyVal) → Except Chars (List PyVal)
  | [] => .ok []
  | (score, d) :: rest =>
    match pySubscrE d (chars "metadata") with
    | .error e => .error e
    | .ok metadata =>
      match formatCitation metadata score with
      | .error e => .error e
      | .ok citation =>
        match pySubscrE d (chars "content") with
        | .error e => .error e
        | .ok content =>
          match pySubscrE d (chars "reasoning") with
          | .error e => .error e
          | .ok reasoning =>
            match formatChunks rest with
            | .error e => .error e
            | .ok tail =>
              .ok (.dict [(chars "content", content), (chars "metadata", metadata),
                (chars "score", .num score), (chars "reasoning", reasoning),
                (chars "citation", .str citation)] :: tail)

/-- Mirrors `AgentRetrieval.retrieve` (the judge path): evaluate every
document, combine, sort descending by score, truncate to `k`, format. -/
def retrieveJudge (loads : Chars → Option PyVal) (fenceSub : Chars → Chars)
    (docs : List PyVal) (resps : Nat → Except Chars Chars) (k : Nat) :
    Except Chars PyVal :=
  match evalAll loads fenceSub resps 0 docs with
  | .error e => .error e
  | .ok evals =>
    match buildScored (docs.zip evals) with
    | .error e => .error e
    | .ok scored =>
      match formatChunks ((sortDesc scored).take k) with
      | .error e => .error e
      | .ok chunks =>
        .ok (.dict [(chars "chunks", .list chunks),
          (chars "method", .str (chars "agent_rag"))])

/-- A `json.loads` oracle returning a well-formed JSON object that lacks
`relevance_score` (the LLM answered with a different key). -/
def c5loads : Chars → Option PyVal :=
  fun _ => some (.dict [(chars "score", .num (9 / 10))])

/-- Document fixture for the judge path. -/
def c5doc : PyVal :=
  .dict [(chars "id", .str (chars "PROC-JUB-001")),
         (chars "content", .str (chars "texto del procedimiento")),
         (chars "metadata", .dict [])]

/-- C5: an erroring LLM evaluation does fall back to `relevance_score = 0.0`
inside `evaluate_relevance` — but a *parseable* evaluation that lacks the
`relevance_score` key is returned as-is, and `retrieve`'s direct subscript
`evaluation["relevance_score"]` then raises `KeyError`, failing the whole
retrieval for one bad document, contrary to the claim. -/
theorem retrieve_judge_keyerror :
    evaluateRelevance c5loads id (.error (chars "timeout")) c5doc =
      .ok (evalFallback (.str (chars "PROC-JUB-001"))
        (chars "Error al evaluar: timeout")) ∧
    retrieveJudge c5loads id [c5doc] (fun _ => .ok (chars "respuesta")) 5 =
      .error (chars "KeyError: relevance_score") :=
  ⟨rfl, rfl⟩
